import Mathlib

/-!
Verification development for the review-report pipeline of the
`openstack-ai-style-guide` repository.

The Python scripts
`roles/ai_zuul_integration/files/generate_zuul_comments.py`,
`roles/ai-html-generation/files/render_html_from_json.py` and
`playbooks/claude-review/files/validate_zuul_schema.py` are shallowly
embedded below.  Dynamically-typed Python values are modelled by `PyVal`;
Python code that can raise is modelled with `Option`/`Except` results
(`none` marks an uncaught exception).  Python floats are modelled by the
exact rational value of the IEEE-754 double; decimal formatting of
floats mirrors CPython's correctly-rounded, round-half-even `%.1f`.
-/

/-- Model of a Python/JSON value.  Dictionaries are ordered association
lists with string keys (the pipeline only ever handles JSON-decoded
dictionaries, whose keys are strings); floats carry the exact rational
value of the IEEE-754 double they denote. -/
inductive PyVal where
  | str (s : String)
  | int (n : Int)
  | float (q : ℚ)
  | bool (b : Bool)
  | none
  | list (xs : List PyVal)
  | dict (kvs : List (String × PyVal))

/-- First binding of a key in an association list, like a lookup in a
Python dict (whose keys are unique). -/
def assocFind (kvs : List (String × PyVal)) (k : String) : Option PyVal :=
  match kvs with
  | [] => Option.none
  | (k', v) :: rest => if k' = k then some v else assocFind rest k

/-- Update-or-append on an association list, mirroring `d[k] = v` on a
Python dict: an existing key keeps its position, a new key is appended. -/
def assocSet (kvs : List (String × PyVal)) (k : String) (v : PyVal) :
    List (String × PyVal) :=
  match kvs with
  | [] => [(k, v)]
  | (k', v') :: rest =>
      if k' = k then (k', v) :: rest else (k', v') :: assocSet rest k v

/-- Python truthiness (`bool(x)`) for the modelled values. -/
def pyFalsy : PyVal → Bool
  | .str s => s = ""
  | .int n => n = 0
  | .float q => q = 0
  | .bool b => !b
  | .none => true
  | .list xs => xs.isEmpty
  | .dict kvs => kvs.isEmpty

/-- Python `isinstance(x, dict)`. -/
def pyIsDict : PyVal → Bool
  | .dict _ => true
  | _ => false

/-- Python `isinstance(x, list)`. -/
def pyIsList : PyVal → Bool
  | .list _ => true
  | _ => false

/-- Python `isinstance(x, str)`. -/
def pyIsStr : PyVal → Bool
  | .str _ => true
  | _ => false

/-- Python `isinstance(x, int)`.  In Python `bool` is a subclass of
`int`, so booleans count as integers. -/
def pyIsInt : PyVal → Bool
  | .int _ => true
  | .bool _ => true
  | _ => false

/-- Python hashability of a value: lists and dicts are unhashable, so
passing one to a `set` membership test raises `TypeError`. -/
def pyHashable : PyVal → Bool
  | .list _ => false
  | .dict _ => false
  | _ => true

/-- Python `d.get(k, default)`; `none` models the `AttributeError`
raised when the receiver is not a dict. -/
def pyGetD (v : PyVal) (k : String) (dflt : PyVal) : Option PyVal :=
  match v with
  | .dict kvs => some ((assocFind kvs k).getD dflt)
  | _ => Option.none

/-- Python string name of the value's type (`type(x).__name__`). -/
def pyTypeName : PyVal → String
  | .str _ => "str"
  | .int _ => "int"
  | .float _ => "float"
  | .bool _ => "bool"
  | .none => "NoneType"
  | .list _ => "list"
  | .dict _ => "dict"

/-- The apostrophe character, written by code so that no apostrophe
literal appears in the text. -/
def quoteCh : Char := Char.ofNat 39

/-- String consisting of one apostrophe. -/
def quoteStr : String := String.mk [quoteCh]

/-- Decimal expansion digits of `num/den` (`num < den`), `fuel` digits at
most, used by the float rendering below. -/
def fracDigits : Nat → Nat → Nat → List Char
  | 0, _, _ => []
  | _ + 1, 0, _ => []
  | fuel + 1, num, den =>
      let num10 := num * 10
      Char.ofNat (48 + num10 / den) :: fracDigits fuel (num10 % den) den

/-- Decimal rendering of a rational, used for `str(float)`.  It prints
the exact value up to 25 fractional digits; this approximates CPython's
shortest-round-trip float repr (adequate here: no claim depends on the
repr of a float, only on `%.1f` formatting, which is modelled exactly
by `formatFixed1Rat`). -/
def floatRepr (q : ℚ) : String :=
  let sign := if q.num < 0 then "-" else ""
  let n := q.num.natAbs
  let d := q.den
  let whole := n / d
  let rest := fracDigits 25 (n % d) d
  sign ++ toString whole ++ "." ++ (if rest.isEmpty then "0" else String.mk rest)

mutual

/-- Python `repr` of a value, approximated: strings are quoted with an
apostrophe and no escaping (no claim depends on the repr of a string
containing quotes). -/
def pyReprOf : PyVal → String
  | .str s => quoteStr ++ s ++ quoteStr
  | .int n => toString n
  | .float q => floatRepr q
  | .bool b => if b then "True" else "False"
  | .none => "None"
  | .list xs => "[" ++ pyReprList xs ++ "]"
  | .dict kvs => "\x7b" ++ pyReprKvs kvs ++ "\x7d"

/-- Comma-separated reprs of list elements. -/
def pyReprList : List PyVal → String
  | [] => ""
  | [x] => pyReprOf x
  | x :: rest => pyReprOf x ++ ", " ++ pyReprList rest

/-- Comma-separated reprs of dict entries. -/
def pyReprKvs : List (String × PyVal) → String
  | [] => ""
  | [(k, v)] => quoteStr ++ k ++ quoteStr ++ ": " ++ pyReprOf v
  | (k, v) :: rest =>
      quoteStr ++ k ++ quoteStr ++ ": " ++ pyReprOf v ++ ", " ++ pyReprKvs rest

end

/-- Python `str(x)`: identity on strings, `repr` otherwise. -/
def pyStrOf : PyVal → String
  | .str s => s
  | v => pyReprOf v

/-- CPython `format(x, ".1f")` on the exact value `q` of a double:
correctly rounded to one decimal, ties to even.  Computed on the
numerator and denominator directly so the kernel can evaluate it. -/
def formatFixed1Rat (q : ℚ) : String :=
  let n : Nat := q.num.natAbs * 10
  let d : Nat := q.den
  let whole := n / d
  let rem := n % d
  let a := if 2 * rem < d then whole
           else if d < 2 * rem then whole + 1
           else if whole % 2 = 0 then whole else whole + 1
  (if q.num < 0 then "-" else "") ++ toString (a / 10) ++ "." ++ toString (a % 10)

/-- Python f-string `{x:.1f}`: defined for floats, ints and bools
(`bool.__format__` falls back to `int`), raises otherwise (`none`). -/
def pyFormatFixed1 : PyVal → Option String
  | .float q => some (formatFixed1Rat q)
  | .int n => some (formatFixed1Rat (n : ℚ))
  | .bool b => some (formatFixed1Rat (if b then 1 else 0))
  | _ => Option.none

/-- The IEEE-754 double nearest to 0.95 — the value the literal `0.95`
denotes in Python and in JSON input (it is slightly below 19/20, which
is why CPython formats it to one decimal as `0.9`).  Stored in lowest
terms: 8556839292003942 / 2^53 = 4278419646001971 / 2^52. -/
def double095 : ℚ := mkRat 4278419646001971 4503599627370496

/-- Substring test on character lists (`pat` occurs contiguously). -/
def isSubstr (pat : List Char) : List Char → Bool
  | [] => pat.isEmpty
  | l@(_ :: t) => pat.isPrefixOf l || isSubstr pat t

/-- Python `needle in haystack` on strings: contiguous substring test. -/
def strContains (haystack pat : String) : Bool :=
  isSubstr pat.data haystack.data

/-- Replace every occurrence of the character `c` by the string `r` —
the semantics of Python `text.replace(c, r)` for a one-character
pattern. -/
def replaceChar (c : Char) (r : List Char) : List Char → List Char
  | [] => []
  | x :: t => (if x = c then r else [x]) ++ replaceChar c r t

/-- Python `'\n'.join(parts)`. -/
def joinNl : List String → String
  | [] => ""
  | [x] => x
  | x :: rest => x ++ "\n" ++ joinNl rest

/-- Python `''.join(parts)`. -/
def joinEmpty : List String → String
  | [] => ""
  | x :: rest => x ++ joinEmpty rest

/-- ASCII lower-casing, the effect of Python `str.lower()` on the ASCII
severity strings handled by the pipeline. -/
def toLowerStr (s : String) : String := String.mk (s.data.map Char.toLower)

/-- ASCII upper-casing, the effect of Python `str.upper()` on the ASCII
severity strings handled by the pipeline. -/
def toUpperStr (s : String) : String := String.mk (s.data.map Char.toUpper)

/-- Python `s.rstrip('s')`: drop every trailing `'s'`. -/
def rstripS (s : String) : String :=
  String.mk (((s.data.reverse).dropWhile (fun c => c = 's')).reverse)

/-- Python `s.lstrip('/')`: drop every leading slash. -/
def lstripSlashes (s : String) : String :=
  String.mk (s.data.dropWhile (fun c => c = '/'))

/-- Split a character list at the first occurrence of `sep`, if any. -/
def splitOnceAt (sep : Char) (l : List Char) : Option (List Char × List Char) :=
  match l.span (fun c => c ≠ sep) with
  | (a, b) =>
    match b with
    | [] => Option.none
    | _ :: rest => some (a, rest)

/-- Python `s.split('/', 2)`: at most two splits, so at most three
parts, the last keeping any further slashes. -/
def splitMax2Slash (s : String) : List String :=
  match splitOnceAt '/' s.data with
  | Option.none => [s]
  | some (a, r) =>
      match splitOnceAt '/' r with
      | Option.none => [String.mk a, String.mk r]
      | some (b, c) => [String.mk a, String.mk b, String.mk c]

example : splitMax2Slash "openstack/nova/nova/compute/manager.py" =
    ["openstack", "nova", "nova/compute/manager.py"] := by decide
example : splitMax2Slash "" = [""] := by decide
example : formatFixed1Rat double095 = "0.9" := by decide
example : formatFixed1Rat 0 = "0.0" := by decide
example : rstripS "warnings" = "warning" := by decide
example : rstripS "suggestions" = "suggestion" := by decide
example : strContains "hello world" "lo wo" = true := by decide
example : strContains "hello" "z" = false := by decide

/-! ## Embedding of `roles/ai_zuul_integration/files/generate_zuul_comments.py` -/

/-- Numeric value of an ASCII digit string, as computed by the JSON
number grammar (whose `DIGIT` is ASCII-only). -/
def natOfDigits (l : List Char) : Nat :=
  l.foldl (fun acc c => 10 * acc + (c.toNat - 48)) 0

/-- The code point ranges of Unicode general category `Nd` (decimal
digits), the character class matched by `\d` in a CPython `str`
pattern (Unicode data of CPython 3.11).  Every range is a run of
decades ordered 0-9, so the digit value of a code point is its offset
in its range modulo 10. -/
def ndRanges : List (Nat × Nat) :=
  [(48, 57), (1632, 1641), (1776, 1785), (1984, 1993), (2406, 2415),
   (2534, 2543), (2662, 2671), (2790, 2799), (2918, 2927), (3046, 3055),
   (3174, 3183), (3302, 3311), (3430, 3439), (3558, 3567), (3664, 3673),
   (3792, 3801), (3872, 3881), (4160, 4169), (4240, 4249), (6112, 6121),
   (6160, 6169), (6470, 6479), (6608, 6617), (6784, 6793), (6800, 6809),
   (6992, 7001), (7088, 7097), (7232, 7241), (7248, 7257), (42528, 42537),
   (43216, 43225), (43264, 43273), (43472, 43481), (43504, 43513),
   (43600, 43609), (44016, 44025), (65296, 65305), (66720, 66729),
   (68912, 68921), (69734, 69743), (69872, 69881), (69942, 69951),
   (70096, 70105), (70384, 70393), (70736, 70745), (70864, 70873),
   (71248, 71257), (71360, 71369), (71472, 71481), (71904, 71913),
   (72016, 72025), (72784, 72793), (73040, 73049), (73120, 73129),
   (92768, 92777), (92864, 92873), (93008, 93017), (120782, 120831),
   (123200, 123209), (123632, 123641), (125264, 125273), (130032, 130041)]

/-- Python regex `\d` on a `str` pattern: any Unicode decimal digit
(category `Nd`), not only ASCII `0-9`. -/
def isPyDigit (c : Char) : Bool :=
  ndRanges.any (fun r => decide (r.1 ≤ c.toNat ∧ c.toNat ≤ r.2))

/-- Decimal value of a Unicode digit character. -/
def pyDigitVal (c : Char) : Nat :=
  match ndRanges.find? (fun r => decide (r.1 ≤ c.toNat ∧ c.toNat ≤ r.2)) with
  | some r => (c.toNat - r.1) % 10
  | Option.none => 0

/-- Python `int(...)` on a (possibly non-ASCII) string of Unicode
decimal digits, as captured by the location regex: positional decimal
over the digit values.  (CPython's configurable `int_max_str_digits`
conversion guard is taken as disabled.) -/
def intOfPyDigits (l : List Char) : Nat :=
  l.foldl (fun acc c => 10 * acc + pyDigitVal c) 0

/-- The effect of the regex anchor `$`, which matches at the end of
the string or just before a single newline ending the string: since
every character of the anchored pattern's core consumes input and the
core's last character is `\d` (never a newline), matching the anchored
pattern on `l` is matching the core on `l` less one trailing
newline. -/
def stripNl (l : List Char) : List Char :=
  if l.getLast? = some '\n' then l.dropLast else l

/-- The value of a string, `none` for every other value (models code
that raises a `TypeError` on non-string input). -/
def asPyStr : PyVal → Option String
  | .str s => some s
  | _ => Option.none

/-- The Zuul execution-root prefixes of `normalize_file_path`, most
specific first. -/
def zuulPrefixes : List String :=
  ["/home/zuul/src/review.opendev.org/",
   "/home/zuul/src/opendev.org/",
   "/home/zuul/src/"]

/-- Drop the first `n` characters of a string (`s[n:]`). -/
def strDrop (s : String) (n : Nat) : String := String.mk (s.data.drop n)

/-- First element of the prefix list that the path starts with, if any —
the prefix the `for`/`break` loop in `normalize_file_path` picks. -/
def findMatchingPre : List String → String → Option String
  | [], _ => Option.none
  | p :: rest, fp =>
      if p.data.isPrefixOf fp.data then some p else findMatchingPre rest fp

/-- The `parts[2] if len(parts) >= 3 else ...` step of
`normalize_file_path`: drop the first two slash-separated segments when
at least three parts result from `split('/', 2)`. -/
def stripOrgProject (fp : String) : String :=
  match splitMax2Slash fp with
  | [_, _, c] => c
  | _ => fp

/-- Embedding of `normalize_file_path` (generate_zuul_comments.py lines
48-82): strip the first matching Zuul prefix and then the org/project
segments; for other absolute paths strip leading slashes and
heuristically the first two segments; relative paths pass through. -/
def normalize_file_path (file_path : String) : String :=
  match findMatchingPre zuulPrefixes file_path with
  | some p => stripOrgProject (strDrop file_path p.length)
  | Option.none =>
      match file_path.data with
      | [] => file_path
      | c :: _ =>
          if c = '/' then
            let stripped := lstripSlashes file_path
            match splitMax2Slash stripped with
            | [_, _, c2] => c2
            | _ => stripped
          else file_path

/-- The `$`-free core of the location regex `^([^:]+):(\d+)(?:-\d+)?$`
on a character list: the non-empty colon-free path and the start line
digit group, with `\d` the Unicode class `Nd` (the optional `-<end>`
group is checked but discarded). -/
def locCore (l : List Char) : Option (List Char × Nat) :=
  match splitOnceAt ':' l with
  | Option.none => Option.none
  | some (p, rest) =>
      if p.isEmpty then Option.none
      else
        match rest.span (fun c => isPyDigit c) with
        | (ds, tail) =>
          if ds.isEmpty then Option.none
          else
            match tail with
            | [] => some (p, intOfPyDigits ds)
            | x :: ds2 =>
                if x = '-' then
                  if !ds2.isEmpty && ds2.all (fun c => isPyDigit c) then
                    some (p, intOfPyDigits ds)
                  else Option.none
                else Option.none

/-- Match of the anchored location regex `^([^:]+):(\d+)(?:-\d+)?$`:
the core applied under the `$` anchor's tolerance of one trailing
newline. -/
def locMatch (l : List Char) : Option (List Char × Nat) :=
  locCore (stripNl l)

/-- Embedding of `parse_location` (lines 30-45): on a regex match,
normalize the path and parse the line number; otherwise
`(None, None)`. -/
def parse_location (location : String) : Option String × Option Nat :=
  match locMatch location.data with
  | some (p, n) => (some (normalize_file_path (String.mk p)), some n)
  | Option.none => (Option.none, Option.none)

/-- Embedding of `map_severity_to_level` (lines 138-153): lower-case
dictionary lookup with default `info`. -/
def map_severity_to_level (severity : String) : String :=
  let s := toLowerStr severity
  if s = "critical" then "error"
  else if s = "high" then "error"
  else if s = "warning" then "warning"
  else if s = "suggestion" then "info"
  else "info"

/-- Embedding of `format_issue_message` (lines 85-135).  `none` models
the `TypeError` Python raises when a part appended raw to the message
(description, recommendation, suggestion) is not a string, or when the
confidence value does not support `.1f` formatting. -/
def format_issue_message (issue : PyVal) (severity : String) : Option String :=
  match issue with
  | .dict kvs => do
      let desc ← asPyStr ((assocFind kvs "description").getD (.str "No description"))
      let confS ← pyFormatFixed1 ((assocFind kvs "confidence").getD (.float 0))
      let head := [desc, "",
        "**Severity**: " ++ toUpperStr severity ++ " | **Confidence**: " ++ confS, ""]
      let tail ←
        if severity = "critical" || severity = "high" then do
          let p1 := match assocFind kvs "risk" with
            | some v => ["**Risk**: " ++ pyStrOf v, ""]
            | Option.none => []
          let p2 := match assocFind kvs "remediation_priority" with
            | some v => ["**Priority**: " ++ pyStrOf v]
            | Option.none => []
          let p3 := match assocFind kvs "why_matters" with
            | some v => ["**Why This Matters**: " ++ pyStrOf v, ""]
            | Option.none => []
          let p4 ← match assocFind kvs "recommendation" with
            | some v => do
                let r ← asPyStr v
                pure ["**Recommendation**:", r]
            | Option.none => pure []
          pure (p1 ++ p2 ++ p3 ++ p4)
        else if severity = "warning" then do
          let p1 := match assocFind kvs "impact" with
            | some v => ["**Impact**: " ++ pyStrOf v, ""]
            | Option.none => []
          let p2 ← match assocFind kvs "suggestion" with
            | some v => do
                let r ← asPyStr v
                pure ["**Suggestion**:", r]
            | Option.none => pure []
          pure (p1 ++ p2)
        else if severity = "suggestion" then do
          let p1 := match assocFind kvs "benefit" with
            | some v => ["**Benefit**: " ++ pyStrOf v, ""]
            | Option.none => []
          let p2 ← match assocFind kvs "recommendation" with
            | some v => do
                let r ← asPyStr v
                pure ["**Recommendation**:", r]
            | Option.none => pure []
          pure (p1 ++ p2)
        else pure []
      pure (joinNl (head ++ tail))
  | _ => Option.none

/-- File-comment accumulator: ordered mapping from file path to the
comment records collected so far. -/
abbrev FileComments := List (String × List PyVal)

/-- Add a comment under a path, keeping the dict-insertion order of
`file_comments[file_path].append(comment)`. -/
def fcAdd (fc : FileComments) (fp : String) (c : PyVal) : FileComments :=
  match fc with
  | [] => [(fp, [c])]
  | (k, cs) :: rest =>
      if k = fp then (k, cs ++ [c]) :: rest else (k, cs) :: fcAdd rest fp c

/-- Python iteration over a value (`for x in v`): lists yield elements,
dicts their keys, strings their characters; other values raise. -/
def pyIterate : PyVal → Option (List PyVal)
  | .list xs => some xs
  | .dict kvs => some (kvs.map (fun kv => PyVal.str kv.1))
  | .str s => some (s.data.map (fun c => PyVal.str (String.mk [c])))
  | _ => Option.none

/-- Body of the inner loop of `extract_file_comments` (lines 173-196)
for one issue: skip on a falsy location, skip when `parse_location`
yields a falsy path or line, otherwise format and append the comment
record. -/
def processIssue (label : String) (fc : FileComments) (issue : PyVal) :
    Option FileComments :=
  match issue with
  | .dict kvs =>
      let locV := (assocFind kvs "location").getD (.str "")
      if pyFalsy locV then some fc
      else
        match locV with
        | .str ls =>
            match parse_location ls with
            | (some fp, some ln) =>
                if fp = "" || ln = 0 then some fc
                else do
                  let msg ← format_issue_message issue label
                  let lvl := map_severity_to_level label
                  pure (fcAdd fc fp
                    (.dict [("line", .int (ln : Int)), ("message", .str msg),
                            ("level", .str lvl)]))
            | _ => some fc
        | _ => Option.none
  | _ => Option.none

/-- Fold of `processIssue` over one severity's issue list. -/
def processList (label : String) : FileComments → List PyVal → Option FileComments
  | fc, [] => some fc
  | fc, i :: rest => do
      let fc' ← processIssue label fc i
      processList label fc' rest

/-- One iteration of the severity loop of `extract_file_comments`:
fetch `issues.get(key, [])`, iterate it, process each issue with the
label `key.rstrip('s')`. -/
def handleSeverity (issues : PyVal) (sk : String) (fc : FileComments) :
    Option FileComments := do
  let itemsV ← pyGetD issues sk (.list [])
  let items ← pyIterate itemsV
  processList (rstripS sk) fc items

/-- Embedding of `extract_file_comments` (lines 156-198): process the
four severity keys in order over `review_data.get('issues', {})`. -/
def extract_file_comments (review_data : PyVal) : Option FileComments :=
  match review_data with
  | .dict kvs => do
      let issues := (assocFind kvs "issues").getD (.dict [])
      let fc1 ← handleSeverity issues "critical" []
      let fc2 ← handleSeverity issues "high" fc1
      let fc3 ← handleSeverity issues "warnings" fc2
      handleSeverity issues "suggestions" fc3
  | _ => Option.none

/-- Embedding of `generate_zuul_return_data` (lines 201-216): wrap the
extracted comments as `{zuul: {file_comments: ...}}`. -/
def generate_zuul_return_data (review_data : PyVal) : Option PyVal :=
  (extract_file_comments review_data).map (fun fc =>
    .dict [("zuul",
      .dict [("file_comments",
        .dict (fc.map (fun kv => (kv.1, PyVal.list kv.2))))])])

/-- Validity of one comment record as checked by the schema validator
of generate_zuul_comments.py (lines 272-304): a dict with `line` and
`message` keys, `line` an int (booleans count, as in Python), `message`
a string, and `level`, when present, one of the three levels. -/
def checkCommentB (c : PyVal) : Bool :=
  match c with
  | .dict kvs =>
      match assocFind kvs "line", assocFind kvs "message" with
      | some lv, some mv =>
          pyIsInt lv && pyIsStr mv &&
          (match assocFind kvs "level" with
           | some l =>
               (match l with
                | .str s => s = "error" || s = "warning" || s = "info"
                | _ => false)
           | Option.none => true)
      | _, _ => false
  | _ => false

/-- Validity of the per-file entries: each value a list of valid
comment records. -/
def checkFilesB : List (String × PyVal) → Bool
  | [] => true
  | (_, v) :: rest =>
      (match v with
       | .list cs => cs.all checkCommentB
       | _ => false) && checkFilesB rest

/-- Embedding of the boolean `validate_zuul_schema` of
generate_zuul_comments.py (lines 243-306); `none` models a `TypeError`
from a membership test on a non-container. -/
def validate_zuul_schema (data : PyVal) : Option Bool :=
  match data with
  | .dict kvs =>
      match assocFind kvs "zuul" with
      | Option.none => some false
      | some z =>
          match z with
          | .dict zkvs =>
              match assocFind zkvs "file_comments" with
              | Option.none => some false
              | some fcv =>
                  match fcv with
                  | .dict fkvs => some (checkFilesB fkvs)
                  | _ => some false
          | .list xs =>
              if xs.any (fun x => match x with
                  | .str s => s = "file_comments"
                  | _ => false) then
                Option.none
              else some false
          | .str s =>
              if strContains s "file_comments" then Option.none else some false
          | _ => Option.none
  | _ => Option.none

/-- Embedding of `extract_review_data` (lines 309-326): unwrap
`structured_output` when it is present and holds a dict, otherwise
return the data unchanged; `none` models the `TypeError` raised when
the membership test succeeds on a non-dict container (subscripting then
fails) or when `in` is unsupported. -/
def extract_review_data (data : PyVal) : Option PyVal :=
  match data with
  | .dict kvs =>
      match assocFind kvs "structured_output" with
      | some (.dict inner) => some (.dict inner)
      | _ => some data
  | .list xs =>
      if xs.any (fun x => match x with
          | .str s => s = "structured_output"
          | _ => false) then
        Option.none
      else some data
  | .str s =>
      if strContains s "structured_output" then Option.none else some data
  | _ => Option.none

example : parse_location "x.py:10" = (some "x.py", some 10) := by decide
example : parse_location "x.py:10-20" = (some "x.py", some 10) := by decide
example : parse_location "not-a-location" = (Option.none, Option.none) := by decide
example : parse_location "x.py:0" = (some "x.py", some 0) := by decide
example :
    parse_location "/home/zuul/src/opendev.org/openstack/nova/nova/compute/manager.py:140" =
      (some "nova/compute/manager.py", some 140) := by decide
example : parse_location "roles/ai_code_review/tasks/main.yaml:25" =
    (some "roles/ai_code_review/tasks/main.yaml", some 25) := by decide
example : map_severity_to_level "HIGH" = "error" := by decide
example : map_severity_to_level "bogus" = "info" := by decide

/-! ## Embedding of `roles/ai-html-generation/files/render_html_from_json.py` -/

/-- The per-character escaping `escape_html` performs: each of the five
special characters becomes its entity, every other character stays. -/
def escChar (c : Char) : List Char :=
  if c = '&' then "&amp;".data
  else if c = '<' then "&lt;".data
  else if c = '>' then "&gt;".data
  else if c = '"' then "&quot;".data
  else if c = quoteCh then "&#39;".data
  else [c]

/-- The chained `.replace` calls of `escape_html` (render script lines
314-319), `&` first, on a character list. -/
def escapeHtmlList (l : List Char) : List Char :=
  replaceChar quoteCh "&#39;".data
    (replaceChar '"' "&quot;".data
      (replaceChar '>' "&gt;".data
        (replaceChar '<' "&lt;".data
          (replaceChar '&' "&amp;".data l))))

/-- Embedding of `escape_html` (lines 310-319): coerce non-strings with
`str`, then run the five chained replacements. -/
def escape_html (text : PyVal) : String :=
  String.mk (escapeHtmlList (pyStrOf text).data)

/-- `escape_html` on a plain string. -/
def escapeS (s : String) : String := escape_html (.str s)

/-- Badge icon for critical issues (source line badge_map). -/
def iconCritical : String := "⛔"

/-- Badge icon for high issues (source line badge_map). -/
def iconHigh : String := "🔴"

/-- Badge icon for warning issues (source line badge_map). -/
def iconWarning : String := "⚠️"

/-- Badge icon for suggestion issues (source line badge_map). -/
def iconSuggestion : String := "ℹ️"

/-- Fallback badge icon for unknown severities. -/
def iconBullet : String := "•"

/-- Icon/label pairs of the badge map in `render_issue_card`
(lines 212-218), including the generic-bullet fallback. -/
def badgeFor (severity : String) : String × String :=
  if severity = "critical" then (iconCritical, "CRITICAL")
  else if severity = "high" then (iconHigh, "HIGH")
  else if severity = "warning" then (iconWarning, "WARNING")
  else if severity = "suggestion" then (iconSuggestion, "SUGGESTION")
  else (iconBullet, toUpperStr severity)

/-- The fixed HTML of the issue-card template of `render_issue_card`
(lines 248-262), assembled from the already-rendered pieces exactly as
the f-string interpolates them. -/
def cardHtml (severity icon label : String) (number total : Nat)
    (description confS details : String) : String :=
  joinEmpty
    ["<details class=\"issue-card ", severity, "\" open>\n",
     "    <summary class=\"issue-summary\">\n",
     "        <span class=\"severity-badge severity-", severity, "\">\n",
     "            <span class=\"severity-icon\" aria-hidden=\"true\">", icon, "</span>\n",
     "            ", label, "\n",
     "        </span>\n",
     "        <span class=\"issue-number\">", toString number, " of ", toString total, "</span>\n",
     "        <span class=\"issue-description\">", description, "</span>\n",
     "        <span class=\"confidence\">Confidence: ", confS, "</span>\n",
     "    </summary>\n",
     "    <div class=\"issue-details\">\n",
     "        ", details, "\n",
     "    </div>\n",
     "</details>\n"]

/-- Embedding of `render_issue_card` (lines 195-262).  `none` models
the exception raised when the confidence value rejects `.1f`
formatting; every free-text field goes through `escape_html`. -/
def render_issue_card (issue : PyVal) (severity : String) (number total : Nat) :
    Option String :=
  match issue with
  | .dict kvs => do
      let description := escape_html ((assocFind kvs "description").getD (.str "No description"))
      let confS ← pyFormatFixed1 ((assocFind kvs "confidence").getD (.float 0))
      let location := escape_html ((assocFind kvs "location").getD (.str "Unknown"))
      let icon := (badgeFor severity).1
      let label := (badgeFor severity).2
      let base := ["<p><strong>Location</strong>: <code>" ++ location ++ "</code></p>"]
      let extra :=
        if severity = "critical" || severity = "high" then
          (match assocFind kvs "risk" with
           | some v => ["<p><strong>Risk</strong>: " ++ escape_html v ++ "</p>"]
           | Option.none => []) ++
          (match assocFind kvs "remediation_priority" with
           | some v => ["<p><strong>Remediation Priority</strong>: " ++ escape_html v ++ "</p>"]
           | Option.none => []) ++
          (match assocFind kvs "why_matters" with
           | some v => ["<p><strong>Why This Matters</strong>: " ++ escape_html v ++ "</p>"]
           | Option.none => []) ++
          (match assocFind kvs "recommendation" with
           | some v => ["<p><strong>Recommendation</strong>: " ++ escape_html v ++ "</p>"]
           | Option.none => [])
        else if severity = "warning" then
          (match assocFind kvs "impact" with
           | some v => ["<p><strong>Impact</strong>: " ++ escape_html v ++ "</p>"]
           | Option.none => []) ++
          (match assocFind kvs "suggestion" with
           | some v => ["<p><strong>Suggestion</strong>: " ++ escape_html v ++ "</p>"]
           | Option.none => [])
        else if severity = "suggestion" then
          (match assocFind kvs "benefit" with
           | some v => ["<p><strong>Benefit</strong>: " ++ escape_html v ++ "</p>"]
           | Option.none => []) ++
          (match assocFind kvs "recommendation" with
           | some v => ["<p><strong>Recommendation</strong>: " ++ escape_html v ++ "</p>"]
           | Option.none => [])
        else []
      let details := joinNl (base ++ extra)
      pure (cardHtml severity icon label number total description confS details)
  | _ => Option.none

/-- Indexed rendering of all cards of one severity list (the
`enumerate(..., 1)` loop of `render_all_issues`). -/
def renderCardsAux (label : String) (total : Nat) :
    Nat → List PyVal → Option (List String)
  | _, [] => pure []
  | idx, i :: rest => do
      let c ← render_issue_card i label idx total
      let cs ← renderCardsAux label total (idx + 1) rest
      pure (c :: cs)

/-- One severity block of `render_all_issues` (lines 144-192): a
section with cards when the list is truthy, the "None found."
placeholder otherwise. -/
def issuesSection (issues : PyVal) (key aria heading label : String) :
    Option (List String) := do
  let itemsV ← pyGetD issues key (.list [])
  if pyFalsy itemsV then
    pure [heading ++ "<p>None found.</p>"]
  else do
    let items ← pyIterate itemsV
    let cards ← renderCardsAux label items.length 1 items
    pure (["<section role=\"region\" aria-label=\"" ++ aria ++ "\">", heading] ++
      cards ++ ["</section>"])

/-- Embedding of `render_all_issues` (lines 144-192): the four severity
blocks in fixed order, joined with newlines. -/
def render_all_issues (issues : PyVal) : Option String := do
  let s1 ← issuesSection issues "critical" "Critical issues" "<h2>Critical Issues</h2>" "critical"
  let s2 ← issuesSection issues "high" "High severity issues" "<h2>High Issues</h2>" "high"
  let s3 ← issuesSection issues "warnings" "Warnings" "<h2>Warnings</h2>" "warning"
  let s4 ← issuesSection issues "suggestions" "Suggestions" "<h2>Suggestions</h2>" "suggestion"
  pure (joinNl (s1 ++ s2 ++ s3 ++ s4))

/-- Embedding of `render_statistics_section` (lines 109-141): the five
displayed numbers come from `statistics.get(...)` with default 0 — the
total is the document's declared `total` field, not a computed sum. -/
def render_statistics_section (statistics : PyVal) : Option String :=
  match statistics with
  | .dict kvs =>
      let critical := pyStrOf ((assocFind kvs "critical").getD (.int 0))
      let high := pyStrOf ((assocFind kvs "high").getD (.int 0))
      let warnings := pyStrOf ((assocFind kvs "warnings").getD (.int 0))
      let suggestions := pyStrOf ((assocFind kvs "suggestions").getD (.int 0))
      let total := pyStrOf ((assocFind kvs "total").getD (.int 0))
      some (joinEmpty
        ["<div class=\"summary-stats\">\n",
         "<div class=\"stats-container\" role=\"region\" aria-label=\"Summary statistics\">\n",
         "    <div class=\"stat-item stat-critical\">\n",
         "        <div class=\"stat-number\" aria-label=\"",
         critical ++ " critical issues", "\">", critical, "</div>\n",
         "        <div class=\"stat-label\">Critical</div>\n",
         "    </div>\n",
         "    <div class=\"stat-item stat-high\">\n",
         "        <div class=\"stat-number\" aria-label=\"",
         high ++ " high issues", "\">", high, "</div>\n",
         "        <div class=\"stat-label\">High</div>\n",
         "    </div>\n",
         "    <div class=\"stat-item stat-warning\">\n",
         "        <div class=\"stat-number\" aria-label=\"",
         warnings ++ " warnings", "\">", warnings, "</div>\n",
         "        <div class=\"stat-label\">Warnings</div>\n",
         "    </div>\n",
         "    <div class=\"stat-item stat-suggestion\">\n",
         "        <div class=\"stat-number\" aria-label=\"",
         suggestions ++ " suggestions", "\">", suggestions, "</div>\n",
         "        <div class=\"stat-label\">Suggestions</div>\n",
         "    </div>\n",
         "    <div class=\"stat-item\">\n",
         "        <div class=\"stat-number\" aria-label=\"",
         total ++ " total findings", "\">", total, "</div>\n",
         "        <div class=\"stat-label\">Total</div>\n",
         "    </div>\n",
         "</div>\n",
         "</div>\n"])
  | _ => Option.none

/-- Embedding of `render_context_section` (lines 96-106). -/
def render_context_section (context : PyVal) : Option String :=
  match context with
  | .dict kvs =>
      some (
        "<section role=\"region\" aria-label=\"Review context\">\n" ++
        "<h2>Context</h2>\n" ++
        "<ul>\n" ++
        "<li><strong>Change</strong>: " ++
          escape_html ((assocFind kvs "change").getD (.str "N/A")) ++ "</li>\n" ++
        "<li><strong>Scope</strong>: " ++
          escape_html ((assocFind kvs "scope").getD (.str "N/A")) ++ "</li>\n" ++
        "<li><strong>Impact</strong>: " ++
          escape_html ((assocFind kvs "impact").getD (.str "N/A")) ++ "</li>\n" ++
        "</ul>\n" ++
        "</section>\n")
  | _ => Option.none

/-- Embedding of `render_positive_observations` (lines 265-284). -/
def render_positive_observations (observations : PyVal) : Option String :=
  if pyFalsy observations then some ""
  else do
    let items ← pyIterate observations
    let lis ← items.mapM (fun obs =>
      match obs with
      | .dict kvs =>
          some ("<li><strong>" ++
            escape_html ((assocFind kvs "category").getD (.str "General")) ++
            "</strong>: " ++
            escape_html ((assocFind kvs "observation").getD (.str "")) ++ "</li>")
      | _ => Option.none)
    pure (
      "<section role=\"region\" aria-label=\"Positive observations\">\n" ++
      "<h2>Positive Observations</h2>\n" ++
      "<div class=\"positive-observation\">\n" ++
      "<ul>\n" ++
      joinEmpty lis ++ "\n" ++
      "</ul>\n" ++
      "</div>\n" ++
      "</section>\n")

/-- Embedding of `render_summary_section` (lines 287-307). -/
def render_summary_section (summary statistics : PyVal) : Option String :=
  match summary, statistics with
  | .dict skvs, .dict tkvs =>
      some (
        "<section role=\"region\" aria-label=\"Summary\">\n" ++
        "<h2>Summary</h2>\n" ++
        "<ul>\n" ++
        "<li><strong>Total Issues</strong>: " ++
          pyStrOf ((assocFind tkvs "critical").getD (.int 0)) ++ " Critical, " ++
          pyStrOf ((assocFind tkvs "high").getD (.int 0)) ++ " High, " ++
          pyStrOf ((assocFind tkvs "warnings").getD (.int 0)) ++ " Warnings, " ++
          pyStrOf ((assocFind tkvs "suggestions").getD (.int 0)) ++ " Suggestions</li>\n" ++
        "<li><strong>Overall Assessment</strong>: " ++
          escape_html ((assocFind skvs "assessment").getD (.str "N/A")) ++ "</li>\n" ++
        "<li><strong>Priority Focus</strong>: " ++
          escape_html ((assocFind skvs "priority_focus").getD (.str "N/A")) ++ "</li>\n" ++
        "</ul>\n" ++
        "<p>" ++
          escape_html ((assocFind skvs "detailed_summary").getD (.str "N/A")) ++ "</p>\n" ++
        "</section>\n")
  | _, _ => Option.none

/-- The `CSS_STYLES` constant of the render script (lines 323-622), byte for byte. -/
def cssStyles : String := "\n/* Base Styles */\n* \x7b\n    margin: 0;\n    padding: 0;\n    box-sizing: border-box;\n\x7d\n\nbody \x7b\n    font-family: -apple-system, BlinkMacSystemFont, \"Segoe UI\", Roboto, \"Helvetica Neue\", Arial, sans-serif;\n    background: linear-gradient(135deg, #1a1a1a 0%, #0d0d0d 100%);\n    color: #e0e0e0;\n    line-height: 1.6;\n    padding: 20px;\n\x7d\n\n.container \x7b\n    max-width: 1200px;\n    margin: 0 auto;\n    background: linear-gradient(180deg, #2a2a2a 0%, #1e1e1e 100%);\n    padding: 30px;\n    border-radius: 8px;\n    border: 1px solid rgba(255, 111, 0, 0.4);\n    box-shadow: 0 4px 20px rgba(255, 111, 0, 0.2);\n\x7d\n\nh1 \x7b\n    background: linear-gradient(90deg, #ff6f00 0%, #ec407a 100%);\n    -webkit-background-clip: text;\n    -webkit-text-fill-color: transparent;\n    background-clip: text;\n    font-size: 2.5em;\n    margin-bottom: 20px;\n    border-bottom: 3px solid;\n    border-image: linear-gradient(90deg, #ff6f00, #ec407a) 1;\n    padding-bottom: 10px;\n\x7d\n\nh2 \x7b\n    background: linear-gradient(90deg, #ffa726 0%, #ec407a 100%);\n    -webkit-background-clip: text;\n    -webkit-text-fill-color: transparent;\n    background-clip: text;\n    font-size: 2em;\n    margin-top: 30px;\n    margin-bottom: 15px;\n    border-bottom: 2px solid;\n    border-image: linear-gradient(90deg, #ffa726, #ec407a) 1;\n    padding-bottom: 8px;\n\x7d\n\np \x7b\n    margin-bottom: 15px;\n\x7d\n\nul \x7b\n    margin-left: 20px;\n    margin-bottom: 15px;\n\x7d\n\nli \x7b\n    margin-bottom: 8px;\n\x7d\n\ncode \x7b\n    background-color: #1a1a1a;\n    color: #f8f8f2;\n    padding: 2px 6px;\n    border-radius: 3px;\n    font-family: \"Consolas\", \"Monaco\", \"Courier New\", monospace;\n    font-size: 0.9em;\n\x7d\n\nstrong \x7b\n    color: #ffffff;\n    font-weight: 600;\n\x7d\n\n/* Summary Statistics */\n.summary-stats \x7b\n    background: linear-gradient(135deg, #1e1e1e 0%, #2a2a2a 100%);\n    padding: 20px;\n    border-radius: 8px;\n    margin-bottom: 30px;\n    border: 1px solid rgba(236, 64, 122, 0.4);\n    box-shadow: 0 2px 15px rgba(255, 111, 0, 0.15);\n\x7d\n\n.stats-container \x7b\n    display: flex;\n    justify-content: space-around;\n    flex-wrap: wrap;\n    gap: 20px;\n\x7d\n\n.stat-item \x7b\n    text-align: center;\n    padding: 10px 20px;\n    min-width: 120px;\n\x7d\n\n.stat-number \x7b\n    font-size: 2.5em;\n    font-weight: bold;\n    color: #ffffff;\n\x7d\n\n.stat-label \x7b\n    color: #b0b0b0;\n    font-size: 0.9em;\n    text-transform: uppercase;\n    letter-spacing: 0.05em;\n\x7d\n\n.stat-critical .stat-number \x7b\n    color: #ff5252;\n    text-shadow: 0 0 15px rgba(255, 82, 82, 0.6);\n\x7d\n\n.stat-high .stat-number \x7b\n    color: #ff9800;\n    text-shadow: 0 0 15px rgba(255, 152, 0, 0.6);\n\x7d\n\n.stat-warning .stat-number \x7b\n    color: #ffab40;\n    text-shadow: 0 0 15px rgba(255, 171, 64, 0.6);\n\x7d\n\n.stat-suggestion .stat-number \x7b\n    color: #a1887f;\n    text-shadow: 0 0 15px rgba(161, 136, 127, 0.6);\n\x7d\n\n/* Enhanced Severity Badges - LARGER */\n.severity-badge \x7b\n    display: inline-flex;\n    align-items: center;\n    gap: 8px;\n    padding: 8px 16px;\n    border-radius: 6px;\n    font-weight: bold;\n    font-size: 1.2em;\n    margin-right: 12px;\n    border: 1px solid rgba(255, 255, 255, 0.2);\n    box-shadow: 0 2px 8px rgba(0, 0, 0, 0.3);\n\x7d\n\n.severity-badge.severity-critical \x7b\n    background-color: #c62828;\n    color: #ffffff;\n\x7d\n\n.severity-badge.severity-high \x7b\n    background-color: #d53d0d;\n    color: #ffffff;\n\x7d\n\n.severity-badge.severity-warning \x7b\n    background-color: #d53d0d;\n    color: #ffffff;\n\x7d\n\n.severity-badge.severity-suggestion \x7b\n    background-color: #5d4037;\n    color: #ffffff;\n\x7d\n\n.severity-icon \x7b\n    font-style: normal;\n    font-size: 1.2em;\n\x7d\n\n/* Collapsible Issue Cards - Enhanced */\n.issue-card \x7b\n    background: linear-gradient(135deg, #1e1e1e 0%, #1a1a1a 100%);\n    padding: 15px;\n    margin-bottom: 20px;\n    border-radius: 6px;\n    border-left: 6px solid;\n\x7d\n\n.issue-card.critical \x7b\n    background: linear-gradient(135deg, rgba(198, 40, 40, 0.15) 0%, rgba(198, 40, 40, 0.05) 100%);\n    border-image: linear-gradient(180deg, #ff5252, #c62828) 1;\n    border-left-color: #c62828;\n\x7d\n\n.issue-card.high \x7b\n    background: linear-gradient(135deg, rgba(213, 61, 13, 0.15) 0%, rgba(213, 61, 13, 0.05) 100%);\n    border-image: linear-gradient(180deg, #ff9800, #d53d0d) 1;\n    border-left-color: #d53d0d;\n\x7d\n\n.issue-card.warning \x7b\n    background: linear-gradient(135deg, rgba(213, 61, 13, 0.12) 0%, rgba(213, 61, 13, 0.04) 100%);\n    border-image: linear-gradient(180deg, #ffab40, #d53d0d) 1;\n    border-left-color: #d53d0d;\n\x7d\n\n.issue-card.suggestion \x7b\n    background: linear-gradient(135deg, rgba(93, 64, 55, 0.15) 0%, rgba(93, 64, 55, 0.05) 100%);\n    border-image: linear-gradient(180deg, #a1887f, #5d4037) 1;\n    border-left-color: #5d4037;\n\x7d\n\n.issue-card:hover \x7b\n    background-color: #252525;\n    transform: translateX(2px);\n    transition: all 0.2s ease;\n\x7d\n\n.issue-summary \x7b\n    cursor: pointer;\n    padding: 8px;\n    user-select: none;\n    list-style: none;\n    display: flex;\n    align-items: center;\n    gap: 12px;\n    flex-wrap: wrap;\n\x7d\n\n.issue-summary::-webkit-details-marker \x7b\n    display: none;\n\x7d\n\n.issue-number \x7b\n    font-size: 0.85em;\n    color: #b0b0b0;\n    font-style: italic;\n\x7d\n\n.issue-description \x7b\n    flex: 1;\n    min-width: 200px;\n\x7d\n\n.confidence \x7b\n    color: #b0b0b0;\n    font-size: 0.9em;\n    font-style: italic;\n    margin-left: auto;\n\x7d\n\n.issue-details \x7b\n    margin-top: 15px;\n    padding: 15px;\n    background-color: rgba(0, 0, 0, 0.2);\n    border-radius: 4px;\n\x7d\n\n.issue-details p \x7b\n    margin-bottom: 10px;\n\x7d\n\n/* Positive Observations */\n.positive-observation \x7b\n    background-color: #2a2a2a;\n    border-left: 4px solid #ffa726;\n    padding: 15px;\n    margin-bottom: 15px;\n    border-radius: 4px;\n\x7d\n\n/* Responsive */\n@media (max-width: 768px) \x7b\n    .stats-container \x7b\n        flex-direction: column;\n    \x7d\n\n    .issue-summary \x7b\n        flex-direction: column;\n        align-items: flex-start;\n    \x7d\n\n    .severity-badge \x7b\n        font-size: 1em;\n        padding: 6px 12px;\n    \x7d\n\x7d\n\n/* Print Styles */\n@media print \x7b\n    body \x7b\n        background: white;\n        color: black;\n    \x7d\n\n    .container \x7b\n        background: white;\n        border: 1px solid black;\n        box-shadow: none;\n    \x7d\n\n    details \x7b\n        open: true;\n    \x7d\n\x7d\n"

/-! ## Model of the JSON decoding layer

The pipeline delegates JSON decoding to CPython's `json` module, which
is not part of this repository; the decoder below is modelled from the
spec's contract for it (full-document parse for `json.loads`, longest
valid JSON value occurring as a prefix for
`JSONDecoder.raw_decode`). -/

/-- JSON insignificant whitespace (space, tab, newline, carriage
return), as skipped by the CPython decoder. -/
def skipWsL (l : List Char) : List Char :=
  l.dropWhile (fun c => c = ' ' || c = '\t' || c = '\n' || c = '\r')

/-- Value of an ASCII hex digit, 16 for non-hex characters. -/
def hexVal (c : Char) : Nat :=
  if '0' ≤ c ∧ c ≤ '9' then c.toNat - 48
  else if 'a' ≤ c ∧ c ≤ 'f' then c.toNat - 87
  else if 'A' ≤ c ∧ c ≤ 'F' then c.toNat - 70
  else 16

/-- Modelled from the spec: the JSON string-body scanner of CPython's
`json` module (after the opening quote), strict mode — escapes decoded,
raw control characters rejected; a `\uXXXX` escape yields the single
code unit (surrogate-pair combination is not modelled; no claim
involves it).  Errors carry the remaining input at the stuck point. -/
def scanStringBody : List Char → Except (List Char) (List Char × List Char)
  | [] => Except.error []
  | c :: t =>
      if c = '"' then Except.ok ([], t)
      else if c = '\\' then
        match t with
        | [] => Except.error []
        | e :: t2 =>
            if e = '"' ∨ e = '\\' ∨ e = '/' then
              (scanStringBody t2).map (fun p => (e :: p.1, p.2))
            else if e = 'b' then
              (scanStringBody t2).map (fun p => (Char.ofNat 8 :: p.1, p.2))
            else if e = 'f' then
              (scanStringBody t2).map (fun p => (Char.ofNat 12 :: p.1, p.2))
            else if e = 'n' then
              (scanStringBody t2).map (fun p => ('\n' :: p.1, p.2))
            else if e = 'r' then
              (scanStringBody t2).map (fun p => ('\r' :: p.1, p.2))
            else if e = 't' then
              (scanStringBody t2).map (fun p => ('\t' :: p.1, p.2))
            else if e = 'u' then
              match t2 with
              | h1 :: h2 :: h3 :: h4 :: t3 =>
                  if hexVal h1 < 16 ∧ hexVal h2 < 16 ∧ hexVal h3 < 16 ∧ hexVal h4 < 16 then
                    let code :=
                      ((hexVal h1 * 16 + hexVal h2) * 16 + hexVal h3) * 16 + hexVal h4
                    let ch := if code < 55296 ∨ 57343 < code then Char.ofNat code
                              else Char.ofNat 65533
                    (scanStringBody t3).map (fun p => (ch :: p.1, p.2))
                  else Except.error t2
              | _ => Except.error t2
            else Except.error (e :: t2)
      else if c.toNat < 32 then Except.error (c :: t)
      else (scanStringBody t).map (fun p => (c :: p.1, p.2))

/-- Exponent factor: the rational `10 ^ e` for a signed exponent. -/
def pow10Q (e : Int) : ℚ :=
  match e with
  | .ofNat n => ((10 ^ n : Nat) : ℚ)
  | .negSucc n => 1 / ((10 ^ (n + 1) : Nat) : ℚ)

/-- Modelled from the spec: the JSON number scanner of CPython's `json`
module.  Grammar `-?(0|[1-9][0-9]*)(\.[0-9]+)?([eE][+-]?[0-9]+)?`,
maximal munch; a plain integer yields a Python int, a fraction or
exponent yields a float (kept as the exact rational — CPython converts
to the nearest double; no claim depends on a parsed float's value). -/
def scanNumber (l : List Char) : Except (List Char) (PyVal × List Char) :=
  let (neg, l1) := match l with
    | '-' :: rest => (true, rest)
    | _ => (false, l)
  match l1 with
  | [] => Except.error l1
  | c :: _ =>
      if ¬ c.isDigit then Except.error l1
      else
        let (ipart, r1) :=
          if c = '0' then (['0'], l1.drop 1)
          else l1.span (fun d => d.isDigit)
        let (fpart, r2) :=
          match r1 with
          | '.' :: d :: rest =>
              if d.isDigit then
                match (d :: rest).span (fun x : Char => x.isDigit) with
                | (ds, r) => (ds, r)
              else ([], r1)
          | _ => ([], r1)
        let (epart, r3) :=
          match r2 with
          | 'e' :: rest => ([('e' : Char)] , rest)
          | 'E' :: rest => (['E'], rest)
          | _ => ([], r2)
        if epart.isEmpty then
          if fpart.isEmpty then
            Except.ok (.int (if neg then -(natOfDigits ipart : Int) else (natOfDigits ipart : Int)), r1)
          else
            let m : ℚ := (natOfDigits (ipart ++ fpart) : ℚ) / ((10 ^ fpart.length : Nat) : ℚ)
            Except.ok (.float (if neg then -m else m), r2)
        else
          let (esign, r4) := match r3 with
            | '+' :: rest => ((1 : Int), rest)
            | '-' :: rest => ((-1 : Int), rest)
            | _ => ((1 : Int), r3)
          match r4 with
          | d :: _ =>
              if d.isDigit then
                let (eds, r5) := r4.span (fun x : Char => x.isDigit)
                let e : Int := esign * (natOfDigits eds : Int)
                let m : ℚ :=
                  (natOfDigits (ipart ++ fpart) : ℚ) / ((10 ^ fpart.length : Nat) : ℚ) * pow10Q e
                Except.ok (.float (if neg then -m else m), r5)
              else
                if fpart.isEmpty then
                  Except.ok (.int (if neg then -(natOfDigits ipart : Int) else (natOfDigits ipart : Int)), r1)
                else
                  let m : ℚ := (natOfDigits (ipart ++ fpart) : ℚ) / ((10 ^ fpart.length : Nat) : ℚ)
                  Except.ok (.float (if neg then -m else m), r2)
          | [] =>
              if fpart.isEmpty then
                Except.ok (.int (if neg then -(natOfDigits ipart : Int) else (natOfDigits ipart : Int)), r1)
              else
                let m : ℚ := (natOfDigits (ipart ++ fpart) : ℚ) / ((10 ^ fpart.length : Nat) : ℚ)
                Except.ok (.float (if neg then -m else m), r2)

mutual

/-- Modelled from the spec: the recursive-descent JSON value scanner of
CPython's `json` module (`scan_once`): parses one value starting at the
head of the input (no leading whitespace) and returns the remainder.
Fuelled for termination; the wrappers pass ample fuel. -/
def scanValue : Nat → List Char → Except (List Char) (PyVal × List Char)
  | 0, l => Except.error l
  | fuel + 1, l =>
      match l with
      | [] => Except.error []
      | c :: t =>
          if c = '"' then
            (scanStringBody t).map (fun p => (.str (String.mk p.1), p.2))
          else if c = 't' then
            match t with
            | 'r' :: 'u' :: 'e' :: r => Except.ok (.bool true, r)
            | _ => Except.error l
          else if c = 'f' then
            match t with
            | 'a' :: 'l' :: 's' :: 'e' :: r => Except.ok (.bool false, r)
            | _ => Except.error l
          else if c = 'n' then
            match t with
            | 'u' :: 'l' :: 'l' :: r => Except.ok (.none, r)
            | _ => Except.error l
          else if c = '[' then
            match skipWsL t with
            | ']' :: r => Except.ok (.list [], r)
            | t2 => (scanArrayItems fuel t2).map (fun p => (.list p.1, p.2))
          else if c = '\x7b' then
            match skipWsL t with
            | '\x7d' :: r => Except.ok (.dict [], r)
            | t2 => (scanObjectItems fuel [] t2).map (fun p => (.dict p.1, p.2))
          else if c = '-' ∨ c.isDigit then scanNumber l
          else Except.error l

/-- Array elements after `[` and any whitespace, at least one element
expected, up to and including the closing bracket. -/
def scanArrayItems : Nat → List Char → Except (List Char) (List PyVal × List Char)
  | 0, l => Except.error l
  | fuel + 1, l => do
      let (v, r1) ← scanValue fuel l
      match skipWsL r1 with
      | ',' :: r2 =>
          (scanArrayItems fuel (skipWsL r2)).map (fun p => (v :: p.1, p.2))
      | ']' :: r2 => Except.ok ([v], r2)
      | r2 => Except.error r2

/-- Object members after `{` and any whitespace, at least one member
expected, up to and including the closing brace; the accumulator builds
the dict left to right with `assocSet`, so duplicate keys keep the
first position with the last value, as in a Python dict. -/
def scanObjectItems : Nat → List (String × PyVal) → List Char →
    Except (List Char) (List (String × PyVal) × List Char)
  | 0, _, l => Except.error l
  | fuel + 1, acc, l =>
      match l with
      | '"' :: t => do
          let (kcs, r1) ← scanStringBody t
          match skipWsL r1 with
          | ':' :: r2 => do
              let (v, r3) ← scanValue fuel (skipWsL r2)
              let acc' := assocSet acc (String.mk kcs) v
              match skipWsL r3 with
              | ',' :: r4 => scanObjectItems fuel acc' (skipWsL r4)
              | '\x7d' :: r4 => Except.ok (acc', r4)
              | r4 => Except.error r4
          | r2 => Except.error r2
      | _ => Except.error l

end

/-- Value scan with ample fuel (each fuel level consumes input, twice
the length suffices for any nesting). -/
def scanValueTop (l : List Char) : Except (List Char) (PyVal × List Char) :=
  scanValue (2 * l.length + 2) l

/-- A character list that is exactly one JSON value (strict value
grammar, no surrounding whitespace). -/
def valueExact (l : List Char) : Option PyVal :=
  match scanValueTop l with
  | Except.ok (v, []) => some v
  | _ => Option.none

/-- Modelled from the spec: CPython `json.loads` — whole-document
parse, insignificant whitespace allowed around the single value. -/
def pyLoads (s : String) : Option PyVal :=
  match scanValueTop (skipWsL s.data) with
  | Except.ok (v, r) => if (skipWsL r).isEmpty then some v else Option.none
  | Except.error _ => Option.none

/-- Longest `n ≤ bound` such that the first `n` characters form exactly
one JSON value, with that value. -/
def longestValuePrefixAux (l : List Char) : Nat → Option (PyVal × Nat)
  | 0 => Option.none
  | n + 1 =>
      match valueExact (l.take (n + 1)) with
      | some v => some (v, n + 1)
      | Option.none => longestValuePrefixAux l n

/-- Position at which a direct value scan of the input gets stuck, the
position CPython's `raw_decode` reports in its decode error. -/
def scanStuckPos (s : String) : Nat :=
  match scanValueTop s.data with
  | Except.error r => s.data.length - r.length
  | Except.ok (_, r) => s.data.length - r.length

/-- Modelled from the spec: CPython `json.JSONDecoder.raw_decode` —
decode the longest valid JSON value occurring as a prefix of the text
(no leading whitespace tolerated by the strict value grammar), with the
number of characters consumed; on failure, the position where value
scanning got stuck. -/
def raw_decode (s : String) : Except Nat (PyVal × Nat) :=
  match longestValuePrefixAux s.data s.data.length with
  | some (v, n) => Except.ok (v, n)
  | Option.none => Except.error (scanStuckPos s)

/-- Embedding of `load_json_with_trailing_text`
(generate_zuul_comments.py lines 329-364) over the decoded content
string: try `json.loads` on the whole text, fall back to `raw_decode`
ignoring trailing text, and on a second failure re-raise a decode error
carrying the fallback error's position (the source re-raises
`json.JSONDecodeError` with the same `e.doc` and `e.pos`; only the
position is modelled, not the message text). -/
def load_json_with_trailing_text (s : String) : Except Nat PyVal :=
  match pyLoads s with
  | some v => Except.ok v
  | Option.none =>
      match raw_decode s with
      | Except.ok (v, _) => Except.ok v
      | Except.error p => Except.error p

/-- Outcome of the input phase of `main` (generate_zuul_comments.py
lines 401-420): a fatal decode error, a propagated Python exception, a
fatal wrapper-shape error (exit before any output), or the obtained
review document. -/
inductive ObtainResult where
  | decodeFail (pos : Nat)
  | pyRaise
  | wrapperFail
  | doc (v : PyVal)

/-- The wrapper-handling steps of `main` after decoding (lines
411-420): unwrap via `extract_review_data`, then exit fatally when
`structured_output` is present but not a dict. -/
def obtainAfterDecode (raw : PyVal) : ObtainResult :=
  match extract_review_data raw with
  | Option.none => .pyRaise
  | some rd =>
      match raw with
      | .dict kvs =>
          match assocFind kvs "structured_output" with
          | some v => if pyIsDict v then .doc rd else .wrapperFail
          | Option.none => .doc rd
      | _ => .doc rd

/-- The document-obtaining pipeline of `main` (lines 401-420): tolerant
decode, then wrapper handling. -/
def pipeline_review_doc (s : String) : ObtainResult :=
  match load_json_with_trailing_text s with
  | Except.error p => .decodeFail p
  | Except.ok raw => obtainAfterDecode raw

/-! ## Embedding of `playbooks/claude-review/files/validate_zuul_schema.py` -/

/-- Validity of a hashable `level` value as tested by the playbooks
validator: membership of the value in the set `{info, warning, error}`
(only strings can be members). -/
def levelValidB (lv : PyVal) : Bool :=
  match lv with
  | .str s => s = "info" || s = "warning" || s = "error"
  | _ => false

/-- Outcome of one schema check step of the playbooks validator: the
check passes, early-returns a `(False, message)` pair, or raises an
uncaught `TypeError`. -/
inductive PbOutcome where
  | pass
  | fail (r : Bool × String)
  | raise

/-- The `line` type check of one comment record (playbooks script
lines 77-82). -/
def pbCheckLine (fp : String) (kvs : List (String × PyVal)) : PbOutcome :=
  match assocFind kvs "line" with
  | some ln =>
      if pyIsInt ln then .pass
      else
        .fail (false, "line must be integer in " ++ fp ++ ", got " ++
          pyTypeName ln)
  | Option.none => .pass

/-- Check of one comment record by `validate_schema` (playbooks script
lines 56-82), in source order: dict, `message` presence (string-ness is
not checked), `level` membership in the set `{info, warning, error}`
(an unhashable `level` — a list or dict — makes the set membership test
raise `TypeError`), `line` type (booleans count as ints, as in
Python). -/
def pbCheckComment (fp : String) (i : Nat) (c : PyVal) : PbOutcome :=
  match c with
  | .dict kvs =>
      match assocFind kvs "message" with
      | Option.none =>
          .fail (false, "Comment " ++ toString i ++ " in " ++ fp ++
            " missing required message field")
      | some _ =>
          match assocFind kvs "level" with
          | some lv =>
              if pyHashable lv then
                if levelValidB lv then pbCheckLine fp kvs
                else
                  .fail (false, "Invalid level " ++ pyStrOf lv ++ " in " ++ fp ++
                    ", must be info/warning/error")
              else .raise
          | Option.none => pbCheckLine fp kvs
  | _ =>
      .fail (false, "Comment " ++ toString i ++ " in " ++ fp ++ " must be a dict")

/-- First non-passing record of one file's comment list, if any. -/
def pbCheckList (fp : String) : Nat → List PyVal → PbOutcome
  | _, [] => .pass
  | i, c :: rest =>
      match pbCheckComment fp i c with
      | .fail r => .fail r
      | .raise => .raise
      | .pass => pbCheckList fp (i + 1) rest

/-- First non-passing outcome over the per-file entries of
`file_comments`: a non-list value fails with a message naming the file,
otherwise the records are checked in order. -/
def pbCheckFiles : List (String × PyVal) → PbOutcome
  | [] => .pass
  | (fp, v) :: rest =>
      match v with
      | .list cs =>
          match pbCheckList fp 0 cs with
          | .fail r => .fail r
          | .raise => .raise
          | .pass => pbCheckFiles rest
      | _ => .fail (false, "Comments for " ++ fp ++ " must be a list")

/-- Embedding of `validate_schema` (playbooks script lines 27-84):
`(is_valid, message)` with early-return error pairs; `none` models a
Python exception (membership test or subscript on an unsupported
value). -/
def validate_schema (data : PyVal) : Option (Bool × String) :=
  match data with
  | .dict kvs =>
      match assocFind kvs "zuul" with
      | Option.none => some (false, "Missing required key: zuul")
      | some z =>
          match z with
          | .dict zkvs =>
              match assocFind zkvs "file_comments" with
              | Option.none => some (false, "Missing required key: zuul.file_comments")
              | some fcv =>
                  match fcv with
                  | .dict fkvs =>
                      match pbCheckFiles fkvs with
                      | .fail r => some r
                      | .raise => Option.none
                      | .pass => some (true, "Schema validation passed")
                  | _ =>
                      some (false, "file_comments must be a dict, got " ++ pyTypeName fcv)
          | .list xs =>
              if xs.any (fun x => match x with
                  | .str s => s = "file_comments"
                  | _ => false) then
                Option.none
              else some (false, "Missing required key: zuul.file_comments")
          | .str s =>
              if strContains s "file_comments" then Option.none
              else some (false, "Missing required key: zuul.file_comments")
          | _ => Option.none
  | .list xs =>
      if xs.any (fun x => match x with
          | .str s => s = "zuul"
          | _ => false) then
        Option.none
      else some (false, "Missing required key: zuul")
  | .str s =>
      if strContains s "zuul" then Option.none
      else some (false, "Missing required key: zuul")
  | _ => Option.none

/-- Embedding of `render_html_template` (lines 47-93): the complete
document with the five sections in template order. -/
def render_html_template (review_data : PyVal) : Option String :=
  match review_data with
  | .dict kvs => do
      let context := (assocFind kvs "context").getD (.dict [])
      let statistics := (assocFind kvs "statistics").getD (.dict [])
      let issues := (assocFind kvs "issues").getD (.dict [])
      let positive := (assocFind kvs "positive_observations").getD (.list [])
      let summary := (assocFind kvs "summary").getD (.dict [])
      let contextHtml ← render_context_section context
      let statsHtml ← render_statistics_section statistics
      let issuesHtml ← render_all_issues issues
      let positiveHtml ← render_positive_observations positive
      let summaryHtml ← render_summary_section summary statistics
      pure (joinEmpty
        ["<!DOCTYPE html>\n",
         "<html lang=\"en\">\n",
         "<head>\n",
         "    <meta charset=\"UTF-8\">\n",
         "    <meta name=\"viewport\" content=\"width=device-width, initial-scale=1.0\">\n",
         "    <meta name=\"description\" content=\"AI Code Review Report - WCAG 2.1 Level AA Accessible\">\n",
         "    <title>Code Review Report</title>\n",
         "    <style>\n",
         cssStyles, "\n",
         "    </style>\n",
         "</head>\n",
         "<body>\n",
         "    <div class=\"container\" role=\"main\">\n",
         "        <h1>Code Review Report</h1>\n",
         "\n",
         "        ", statsHtml, "\n",
         "        ", contextHtml, "\n",
         "        ", issuesHtml, "\n",
         "        ", positiveHtml, "\n",
         "        ", summaryHtml, "\n",
         "    </div>\n",
         "</body>\n",
         "</html>\n"])
  | _ => Option.none

/-! ## JSON layer smoke checks -/

example : pyLoads "\x7b\"a\": 1\x7d" = some (.dict [("a", .int 1)]) := rfl
example : pyLoads " [true, null] " = some (.list [.bool true, .none]) := rfl
example : pyLoads "\x7b\"a\": 1\x7dx" = Option.none := rfl
example : load_json_with_trailing_text "\x7b\"a\": 1\x7d tail" =
    Except.ok (.dict [("a", .int 1)]) := rfl
example : load_json_with_trailing_text "xyz" = Except.error 0 := rfl
example : load_json_with_trailing_text " \x7b\x7dx" = Except.error 0 := rfl
example : raw_decode "123e" = Except.ok (.int 123, 3) := rfl

/-! ## Lemmas about the string utilities -/

/-- Characterization of the substring test: an occurrence splits the
list in three. -/
theorem isSubstr_iff (pat l : List Char) :
    isSubstr pat l = true ↔ ∃ a b, l = a ++ (pat ++ b) := by
  induction l with
  | nil =>
      simp only [isSubstr, List.isEmpty_iff]
      constructor
      · intro h
        exact ⟨[], [], by simp [h]⟩
      · rintro ⟨a, b, h⟩
        rcases List.append_eq_nil.mp h.symm with ⟨rfl, h2⟩
        rcases List.append_eq_nil.mp h2 with ⟨rfl, rfl⟩
        rfl
  | cons x t ih =>
      simp only [isSubstr, Bool.or_eq_true, List.isPrefixOf_iff_prefix, ih]
      constructor
      · rintro (h | ⟨a, b, rfl⟩)
        · obtain ⟨s, hs⟩ := h
          exact ⟨[], s, by simp [hs.symm]⟩
        · exact ⟨x :: a, b, rfl⟩
      · rintro ⟨a, b, h⟩
        cases a with
        | nil =>
            left
            exact ⟨b, by simpa using h.symm⟩
        | cons y a' =>
            right
            injection h with h1 h2
            exact ⟨a', b, h2⟩

/-- A list occurs in itself. -/
theorem substr_self (p : List Char) : isSubstr p p = true :=
  (isSubstr_iff p p).mpr ⟨[], [], by simp⟩

/-- An occurrence survives extension on the left. -/
theorem substr_appL {p y : List Char} (x : List Char) (h : isSubstr p y = true) :
    isSubstr p (x ++ y) = true := by
  obtain ⟨a, b, rfl⟩ := (isSubstr_iff p y).mp h
  exact (isSubstr_iff _ _).mpr ⟨x ++ a, b, by simp⟩

/-- An occurrence survives extension on the right. -/
theorem substr_appR {p x : List Char} (y : List Char) (h : isSubstr p x = true) :
    isSubstr p (x ++ y) = true := by
  obtain ⟨a, b, rfl⟩ := (isSubstr_iff p x).mp h
  exact (isSubstr_iff _ _).mpr ⟨a, b ++ y, by simp⟩

/-- Substring occurrence is transitive. -/
theorem substr_trans {p m l : List Char} (h1 : isSubstr p m = true)
    (h2 : isSubstr m l = true) : isSubstr p l = true := by
  obtain ⟨a, b, rfl⟩ := (isSubstr_iff m l).mp h2
  obtain ⟨c, d, rfl⟩ := (isSubstr_iff p m).mp h1
  exact (isSubstr_iff _ _).mpr ⟨a ++ c, d ++ b, by simp⟩

/-- String-level: contained in the right part of a concatenation. -/
theorem strContains_appL (x : String) {y p : String}
    (h : strContains y p = true) : strContains (x ++ y) p = true := by
  simp only [strContains, String.data_append]
  exact substr_appL _ h

/-- String-level: contained in the left part of a concatenation. -/
theorem strContains_appR (y : String) {x p : String}
    (h : strContains x p = true) : strContains (x ++ y) p = true := by
  simp only [strContains, String.data_append]
  exact substr_appR _ h

/-- A string contains itself. -/
theorem strContains_self (p : String) : strContains p p = true :=
  substr_self p.data

/-- Containment is transitive. -/
theorem strContains_trans {a m p : String} (h1 : strContains m p = true)
    (h2 : strContains a m = true) : strContains a p = true :=
  substr_trans h1 h2

/-- `joinEmpty` is an append homomorphism. -/
theorem joinEmpty_append (a b : List String) :
    joinEmpty (a ++ b) = joinEmpty a ++ joinEmpty b := by
  induction a with
  | nil =>
      simp only [List.nil_append, joinEmpty]
      exact (String.empty_append _).symm
  | cons x t ih =>
      simp only [List.cons_append, joinEmpty]
      rw [show t.append b = t ++ b from rfl, ih, String.append_assoc]

/-- A contiguous run of segments occurs in the joined string. -/
theorem strContains_run {xs : List String} (u v w : List String)
    (h : xs = u ++ v ++ w) :
    strContains (joinEmpty xs) (joinEmpty v) = true := by
  subst h
  rw [joinEmpty_append, joinEmpty_append]
  exact strContains_appR _ (strContains_appL _ (strContains_self _))

/-- A single segment occurs in the joined string. -/
theorem strContains_mem {a : String} {xs : List String} (h : a ∈ xs) :
    strContains (joinEmpty xs) a = true := by
  obtain ⟨s, t, rfl⟩ := List.mem_iff_append.mp h
  have := @strContains_run (s ++ a :: t) s [a] t (by simp)
  simpa [joinEmpty, String.append_empty] using this

/-- A part occurs in the newline-joined message. -/
theorem joinNl_contains {a : String} : ∀ {xs : List String}, a ∈ xs →
    strContains (joinNl xs) a = true := by
  intro xs
  induction xs with
  | nil => intro h; simp at h
  | cons x t ih =>
    intro h
    cases t with
    | nil =>
        simp only [List.mem_singleton] at h
        subst h
        exact strContains_self _
    | cons y t' =>
        simp only [joinNl]
        rcases List.mem_cons.mp h with h | h
        · subst h
          exact strContains_appR _ (strContains_appR _ (strContains_self _))
        · exact strContains_appL _ (ih h)

/-! ## Lemmas about HTML escaping -/

/-- `replaceChar` is an append homomorphism. -/
theorem replaceChar_append (c : Char) (r a b : List Char) :
    replaceChar c r (a ++ b) = replaceChar c r a ++ replaceChar c r b := by
  induction a with
  | nil => rfl
  | cons x t ih => simp [replaceChar, ih]

/-- The escaping chain is an append homomorphism. -/
theorem escapeHtmlList_append (a b : List Char) :
    escapeHtmlList (a ++ b) = escapeHtmlList a ++ escapeHtmlList b := by
  simp [escapeHtmlList, replaceChar_append]

/-- On one character the escaping chain acts as `escChar`. -/
theorem escapeHtmlList_single (x : Char) : escapeHtmlList [x] = escChar x := by
  by_cases h1 : x = '&'
  · subst h1; decide
  by_cases h2 : x = '<'
  · subst h2; decide
  by_cases h3 : x = '>'
  · subst h3; decide
  by_cases h4 : x = '"'
  · subst h4; decide
  by_cases h5 : x = quoteCh
  · subst h5; decide
  simp [escapeHtmlList, replaceChar, escChar, h1, h2, h3, h4, h5]

/-- Characterization of `escape_html` on strings: every character is
independently mapped to `escChar` — each of the five special characters
becomes its entity, everything else is untouched. -/
theorem escapeHtmlList_eq_join (l : List Char) :
    escapeHtmlList l = (l.map escChar).flatten := by
  induction l with
  | nil => rfl
  | cons x t ih =>
      have hx : x :: t = [x] ++ t := rfl
      rw [hx, escapeHtmlList_append, escapeHtmlList_single, ih]
      simp

/-- No escaped output character is one of `<`, `>`, `"`, `'`. -/
theorem escChar_no_special {x c : Char} (h : c ∈ escChar x) :
    c ≠ '<' ∧ c ≠ '>' ∧ c ≠ '"' ∧ c ≠ quoteCh := by
  by_cases h1 : x = '&'
  · subst h1
    have he : escChar '&' = ['&', 'a', 'm', 'p', ';'] := by decide
    rw [he] at h
    fin_cases h <;> refine ⟨?_, ?_, ?_, ?_⟩ <;> decide
  by_cases h2 : x = '<'
  · subst h2
    have he : escChar '<' = ['&', 'l', 't', ';'] := by decide
    rw [he] at h
    fin_cases h <;> refine ⟨?_, ?_, ?_, ?_⟩ <;> decide
  by_cases h3 : x = '>'
  · subst h3
    have he : escChar '>' = ['&', 'g', 't', ';'] := by decide
    rw [he] at h
    fin_cases h <;> refine ⟨?_, ?_, ?_, ?_⟩ <;> decide
  by_cases h4 : x = '"'
  · subst h4
    have he : escChar '"' = ['&', 'q', 'u', 'o', 't', ';'] := by decide
    rw [he] at h
    fin_cases h <;> refine ⟨?_, ?_, ?_, ?_⟩ <;> decide
  by_cases h5 : x = quoteCh
  · subst h5
    have he : escChar quoteCh = ['&', '#', '3', '9', ';'] := by decide
    rw [he] at h
    fin_cases h <;> refine ⟨?_, ?_, ?_, ?_⟩ <;> decide
  · have he : escChar x = [x] := by simp [escChar, h1, h2, h3, h4, h5]
    rw [he] at h
    simp only [List.mem_singleton] at h
    subst h
    exact ⟨h2, h3, h4, h5⟩

/-- No character of an escaped string is `<`, `>`, `"` or `'`. -/
theorem escaped_no_special {l : List Char} {c : Char}
    (h : c ∈ escapeHtmlList l) :
    c ≠ '<' ∧ c ≠ '>' ∧ c ≠ '"' ∧ c ≠ quoteCh := by
  rw [escapeHtmlList_eq_join] at h
  obtain ⟨cs, hcs, hc⟩ := List.mem_flatten.mp h
  obtain ⟨x, _, rfl⟩ := List.mem_map.mp hcs
  exact escChar_no_special hc

/-! ## Claim C9 — severity-to-level mapping -/

/-- The mapping always lands in the three-level output taxonomy. -/
theorem level_mem (s : String) :
    map_severity_to_level s = "error" ∨ map_severity_to_level s = "warning" ∨
    map_severity_to_level s = "info" := by
  simp only [map_severity_to_level]
  split_ifs <;> simp

/-- C9, counterexample: the claim maps every input other than the four
exact strings to `info`, but the code lower-cases first, so the input
`"HIGH"` — none of `critical`, `high`, `warning`, `suggestion` — maps
to `error`, not `info`. -/
theorem c9_counterexample :
    map_severity_to_level "HIGH" = "error" ∧
    ("HIGH" : String) ≠ "critical" ∧ ("HIGH" : String) ≠ "high" ∧
    ("HIGH" : String) ≠ "warning" ∧ ("HIGH" : String) ≠ "suggestion" := by
  refine ⟨by decide, by decide, by decide, by decide, by decide⟩

/-- C9 (amended): `map_severity_to_level` is total with values in
`{error, warning, info}`, maps the four known severities as claimed,
and maps every input whose ASCII-lower-cased form is not one of the
four to `info` (matching is case-insensitive, so e.g. `"HIGH"` maps to
`error`). -/
theorem c9_severity_mapping :
    (∀ s : String, map_severity_to_level s = "error" ∨
      map_severity_to_level s = "warning" ∨ map_severity_to_level s = "info") ∧
    map_severity_to_level "critical" = "error" ∧
    map_severity_to_level "high" = "error" ∧
    map_severity_to_level "warning" = "warning" ∧
    map_severity_to_level "suggestion" = "info" ∧
    (∀ s : String,
      toLowerStr s ∉ (["critical", "high", "warning", "suggestion"] : List String) →
      map_severity_to_level s = "info") := by
  refine ⟨level_mem, by decide, by decide, by decide, by decide, ?_⟩
  intro s hs
  simp only [List.mem_cons, List.not_mem_nil, or_false, not_or] at hs
  obtain ⟨n1, n2, n3, n4⟩ := hs
  simp only [map_severity_to_level]
  split_ifs
  rfl

/-- C9 witness: the amended theorem applied at the unknown severity
`"bogus"`, whose lower-cased form is none of the four. -/
theorem c9_witness :
    map_severity_to_level "bogus" = "info" :=
  c9_severity_mapping.2.2.2.2.2 "bogus" (by decide)

/-! ## Claim C4 — location grammar -/

/-- Strings are determined by their character lists. -/
theorem strExt {a b : String} (h : a.data = b.data) : a = b := by
  cases a; cases b; exact congrArg String.mk h

/-- `takeWhile` stops exactly at the first failing element. -/
theorem takeWhile_stop (P : Char → Bool) (p : List Char) (x : Char) (ρ : List Char)
    (hp : ∀ c ∈ p, P c = true) (hx : P x = false) :
    (p ++ x :: ρ).takeWhile P = p := by
  induction p with
  | nil => simp [List.takeWhile_cons, hx]
  | cons y t ih =>
      have hy : P y = true := hp y (by simp)
      simp only [List.cons_append, List.takeWhile_cons, hy, if_true]
      rw [ih (fun c hc => hp c (by simp [hc]))]

/-- `dropWhile` keeps everything from the first failing element on. -/
theorem dropWhile_stop (P : Char → Bool) (p : List Char) (x : Char) (ρ : List Char)
    (hp : ∀ c ∈ p, P c = true) (hx : P x = false) :
    (p ++ x :: ρ).dropWhile P = x :: ρ := by
  induction p with
  | nil => simp [List.dropWhile_cons, hx]
  | cons y t ih =>
      have hy : P y = true := hp y (by simp)
      simp only [List.cons_append, List.dropWhile_cons, hy, if_true]
      exact ih (fun c hc => hp c (by simp [hc]))

/-- `takeWhile` keeps an all-satisfying list whole. -/
theorem takeWhile_all (P : Char → Bool) (l : List Char)
    (h : ∀ c ∈ l, P c = true) : l.takeWhile P = l := by
  induction l with
  | nil => rfl
  | cons y t ih =>
      have hy : P y = true := h y (by simp)
      simp only [List.takeWhile_cons, hy, if_true]
      rw [ih (fun c hc => h c (by simp [hc]))]

/-- `dropWhile` empties an all-satisfying list. -/
theorem dropWhile_all (P : Char → Bool) (l : List Char)
    (h : ∀ c ∈ l, P c = true) : l.dropWhile P = [] := by
  induction l with
  | nil => rfl
  | cons y t ih =>
      have hy : P y = true := h y (by simp)
      simp only [List.dropWhile_cons, hy, if_true]
      exact ih (fun c hc => h c (by simp [hc]))

/-- The head left by `dropWhile` fails the predicate. -/
theorem dropWhile_head_false (P : Char → Bool) :
    ∀ (l : List Char) (x : Char) (xs : List Char),
    l.dropWhile P = x :: xs → P x = false := by
  intro l
  induction l with
  | nil => intro x xs h; simp at h
  | cons y t ih =>
      intro x xs h
      by_cases hy : P y = true
      · rw [List.dropWhile_cons, if_pos hy] at h
        exact ih x xs h
      · rw [List.dropWhile_cons, if_neg hy] at h
        injection h with h1 _
        subst h1
        simpa using hy

/-- `splitOnceAt` on a list with a marked first separator. -/
theorem splitOnceAt_of (sep : Char) (p rest : List Char)
    (hp : ∀ c ∈ p, c ≠ sep) :
    splitOnceAt sep (p ++ sep :: rest) = some (p, rest) := by
  unfold splitOnceAt
  rw [List.span_eq_take_drop,
    takeWhile_stop _ p sep rest (fun c hc => by simp [hp c hc]) (by simp),
    dropWhile_stop _ p sep rest (fun c hc => by simp [hp c hc]) (by simp)]

/-- Inversion of `splitOnceAt`: the first part is separator-free and
the input splits at the separator. -/
theorem splitOnceAt_inv (sep : Char) (l a r : List Char)
    (h : splitOnceAt sep l = some (a, r)) :
    l = a ++ sep :: r ∧ ∀ c ∈ a, c ≠ sep := by
  unfold splitOnceAt at h
  rw [List.span_eq_take_drop] at h
  cases hd : l.dropWhile (fun c => decide (c ≠ sep)) with
  | nil => rw [hd] at h; simp at h
  | cons x xs =>
      rw [hd] at h
      simp only [Option.some.injEq, Prod.mk.injEq] at h
      obtain ⟨ha, hr⟩ := h
      have hx : decide (x ≠ sep) = false := dropWhile_head_false _ l x xs hd
      have hxe : x = sep := by simpa using hx
      have hsplit : l.takeWhile (fun c => decide (c ≠ sep)) ++
          l.dropWhile (fun c => decide (c ≠ sep)) = l :=
        @List.takeWhile_append_dropWhile _ (fun c => decide (c ≠ sep)) l
      constructor
      · rw [← hsplit, hd, ha, hr, hxe]
      · intro c hc
        have := List.mem_takeWhile_imp (ha ▸ hc)
        simpa using this

/-- `stripNl` keeps a list whose last element is not a newline. -/
theorem stripNl_last (m : List Char) (d : Char) (hd : ¬ d = '\n') :
    stripNl (m ++ [d]) = m ++ [d] := by
  unfold stripNl
  rw [List.getLast?_concat]
  rw [if_neg (by simp [hd])]

/-- `stripNl` removes exactly one trailing newline. -/
theorem stripNl_nl (m : List Char) : stripNl (m ++ ['\n']) = m := by
  unfold stripNl
  rw [List.getLast?_concat, if_pos rfl, List.dropLast_concat]

/-- Every list is its own `stripNl` image or that image plus a
trailing newline. -/
theorem stripNl_self_or (l : List Char) :
    l = stripNl l ∨ l = stripNl l ++ ['\n'] := by
  rcases List.eq_nil_or_concat l with h | ⟨m, d, h⟩
  · left
    rw [h]
    rfl
  · rw [h, List.concat_eq_append]
    by_cases hd : d = '\n'
    · right
      rw [hd, stripNl_nl m]
    · left
      rw [stripNl_last m d hd]

/-- A nonempty list of Unicode digits ends in a Unicode digit, which
is never a newline. -/
theorem pyDigits_split_last (ds : List Char) (hds : ds ≠ [])
    (hdd : ∀ c ∈ ds, isPyDigit c = true) :
    ∃ m d, ds = m ++ [d] ∧ ¬ d = '\n' := by
  rcases List.eq_nil_or_concat ds with h | ⟨m, d, h⟩
  · exact absurd h hds
  · refine ⟨m, d, by simpa [List.concat_eq_append] using h, ?_⟩
    intro hdn
    have hmem : d ∈ ds := by
      rw [h]
      simp [List.concat_eq_append]
    have := hdd d hmem
    rw [hdn] at this
    exact absurd this (by decide)

/-- The core of the location regex on `<path>:<line>` with a colon-free
non-empty path and a non-empty Unicode digit line. -/
theorem locCore_plain (p ds : List Char) (hp : p ≠ []) (hpc : ∀ c ∈ p, c ≠ ':')
    (hds : ds ≠ []) (hdd : ∀ c ∈ ds, isPyDigit c = true) :
    locCore (p ++ ':' :: ds) = some (p, intOfPyDigits ds) := by
  unfold locCore
  rw [splitOnceAt_of ':' p ds hpc]
  have hpe : p.isEmpty = false := by cases p <;> simp_all
  simp only [hpe, Bool.false_eq_true, if_false]
  rw [List.span_eq_take_drop, takeWhile_all _ ds hdd, dropWhile_all _ ds hdd]
  have hde : ds.isEmpty = false := by cases ds <;> simp_all
  simp [hde]

/-- The core of the location regex on `<path>:<line>-<end>`, discarding
the end of the range. -/
theorem locCore_range (p ds es : List Char) (hp : p ≠ [])
    (hpc : ∀ c ∈ p, c ≠ ':') (hds : ds ≠ []) (hdd : ∀ c ∈ ds, isPyDigit c = true)
    (hes : es ≠ []) (hed : ∀ c ∈ es, isPyDigit c = true) :
    locCore (p ++ ':' :: (ds ++ '-' :: es)) = some (p, intOfPyDigits ds) := by
  unfold locCore
  rw [splitOnceAt_of ':' p (ds ++ '-' :: es) hpc]
  have hpe : p.isEmpty = false := by cases p <;> simp_all
  simp only [hpe, Bool.false_eq_true, if_false]
  rw [List.span_eq_take_drop,
    takeWhile_stop _ ds '-' es hdd (by decide),
    dropWhile_stop _ ds '-' es hdd (by decide)]
  have hde : ds.isEmpty = false := by cases ds <;> simp_all
  have hee : es.isEmpty = false := by cases es <;> simp_all
  have hall : es.all (fun c => isPyDigit c) = true := List.all_eq_true.mpr hed
  simp [hde, hee, hall]

/-- The anchored regex on `<path>:<line>`. -/
theorem locMatch_plain (p ds : List Char) (hp : p ≠ []) (hpc : ∀ c ∈ p, c ≠ ':')
    (hds : ds ≠ []) (hdd : ∀ c ∈ ds, isPyDigit c = true) :
    locMatch (p ++ ':' :: ds) = some (p, intOfPyDigits ds) := by
  obtain ⟨m, d, hsplit, hdn⟩ := pyDigits_split_last ds hds hdd
  unfold locMatch
  rw [hsplit]
  have hassoc : p ++ ':' :: (m ++ [d]) = (p ++ ':' :: m) ++ [d] := by
    simp [List.cons_append, List.append_assoc]
  rw [hassoc, stripNl_last _ _ hdn, ← hassoc, ← hsplit]
  exact locCore_plain p ds hp hpc hds hdd

/-- The anchored regex on `<path>:<line>` with a trailing newline,
which `$` tolerates. -/
theorem locMatch_plain_nl (p ds : List Char) (hp : p ≠ [])
    (hpc : ∀ c ∈ p, c ≠ ':')
    (hds : ds ≠ []) (hdd : ∀ c ∈ ds, isPyDigit c = true) :
    locMatch ((p ++ ':' :: ds) ++ ['\n']) = some (p, intOfPyDigits ds) := by
  unfold locMatch
  rw [stripNl_nl]
  exact locCore_plain p ds hp hpc hds hdd

/-- The anchored regex on `<path>:<line>-<end>`. -/
theorem locMatch_range (p ds es : List Char) (hp : p ≠ [])
    (hpc : ∀ c ∈ p, c ≠ ':') (hds : ds ≠ []) (hdd : ∀ c ∈ ds, isPyDigit c = true)
    (hes : es ≠ []) (hed : ∀ c ∈ es, isPyDigit c = true) :
    locMatch (p ++ ':' :: (ds ++ '-' :: es)) = some (p, intOfPyDigits ds) := by
  obtain ⟨m, d, hsplit, hdn⟩ := pyDigits_split_last es hes hed
  unfold locMatch
  rw [hsplit]
  have hassoc : p ++ ':' :: (ds ++ '-' :: (m ++ [d])) =
      (p ++ ':' :: (ds ++ '-' :: m)) ++ [d] := by
    simp [List.cons_append, List.append_assoc]
  rw [hassoc, stripNl_last _ _ hdn, ← hassoc, ← hsplit]
  exact locCore_range p ds es hp hpc hds hdd hes hed

/-- The anchored regex on `<path>:<line>-<end>` with a trailing
newline. -/
theorem locMatch_range_nl (p ds es : List Char) (hp : p ≠ [])
    (hpc : ∀ c ∈ p, c ≠ ':') (hds : ds ≠ []) (hdd : ∀ c ∈ ds, isPyDigit c = true)
    (hes : es ≠ []) (hed : ∀ c ∈ es, isPyDigit c = true) :
    locMatch ((p ++ ':' :: (ds ++ '-' :: es)) ++ ['\n']) =
      some (p, intOfPyDigits ds) := by
  unfold locMatch
  rw [stripNl_nl]
  exact locCore_range p ds es hp hpc hds hdd hes hed

/-- Inversion of the core of the location regex: a successful match
exhibits the grammar decomposition. -/
theorem locCore_inv (l : List Char) (p : List Char) (n : Nat)
    (h : locCore l = some (p, n)) :
    p ≠ [] ∧ (∀ c ∈ p, c ≠ ':') ∧
    ∃ ds, ds ≠ [] ∧ (∀ c ∈ ds, isPyDigit c = true) ∧ n = intOfPyDigits ds ∧
      (l = p ++ ':' :: ds ∨
        ∃ es, es ≠ [] ∧ (∀ c ∈ es, isPyDigit c = true) ∧
          l = p ++ ':' :: (ds ++ '-' :: es)) := by
  unfold locCore at h
  cases hs : splitOnceAt ':' l with
  | none => rw [hs] at h; simp at h
  | some pr =>
      obtain ⟨a, rest⟩ := pr
      rw [hs] at h
      obtain ⟨hl, hfree⟩ := splitOnceAt_inv ':' l a rest hs
      by_cases hae : a.isEmpty
      · simp [hae] at h
      · simp only [hae, Bool.false_eq_true, if_false] at h
        rw [List.span_eq_take_drop] at h
        have hrest : rest.takeWhile (fun c => isPyDigit c) ++
            rest.dropWhile (fun c => isPyDigit c) = rest :=
          @List.takeWhile_append_dropWhile _ (fun c => isPyDigit c) rest
        have hdd : ∀ c ∈ rest.takeWhile (fun c => isPyDigit c), isPyDigit c = true :=
          fun c hc => List.mem_takeWhile_imp hc
        have hane : a ≠ [] := by cases ha2 : a <;> rw [ha2] at hae <;> simp_all
        by_cases hde : (rest.takeWhile (fun c => isPyDigit c)).isEmpty
        · simp [hde] at h
        · simp only [hde, Bool.false_eq_true, if_false] at h
          have hdne : rest.takeWhile (fun c => isPyDigit c) ≠ [] := by
            cases hd2 : rest.takeWhile (fun c => isPyDigit c) <;>
              rw [hd2] at hde <;> simp_all
          cases htl : rest.dropWhile (fun c => isPyDigit c) with
          | nil =>
              rw [htl] at h
              simp only [Option.some.injEq, Prod.mk.injEq] at h
              obtain ⟨hpa, hn⟩ := h
              have hr2 : rest = rest.takeWhile (fun c => isPyDigit c) := by
                have h0 := hrest
                rw [htl, List.append_nil] at h0
                exact h0.symm
              refine ⟨hpa ▸ hane, hpa ▸ hfree, rest.takeWhile (fun c => isPyDigit c),
                hdne, hdd, hn.symm, Or.inl ?_⟩
              rw [hl, hpa]
              exact congrArg (fun t => p ++ ':' :: t) hr2
          | cons x xs =>
              rw [htl] at h
              dsimp only at h
              by_cases hx : x = '-'
              · rw [if_pos hx] at h
                by_cases hcond : (!xs.isEmpty && xs.all (fun c => isPyDigit c)) = true
                · rw [if_pos hcond] at h
                  simp only [Option.some.injEq, Prod.mk.injEq] at h
                  obtain ⟨hpa, hn⟩ := h
                  simp only [Bool.and_eq_true] at hcond
                  have hxe : xs.isEmpty = false := by
                    have := hcond.1
                    revert this
                    cases xs.isEmpty <;> simp
                  have hxd : ∀ c ∈ xs, isPyDigit c = true := by
                    have := hcond.2
                    simpa [List.all_eq_true] using this
                  have hxne : xs ≠ [] := by
                    cases hx2 : xs <;> rw [hx2] at hxe <;> simp_all
                  have h0 := hrest
                  rw [htl, hx] at h0
                  refine ⟨hpa ▸ hane, hpa ▸ hfree, rest.takeWhile (fun c => isPyDigit c),
                    hdne, hdd, hn.symm, Or.inr ⟨xs, hxne, hxd, ?_⟩⟩
                  rw [hl, hpa]
                  exact congrArg (fun t => p ++ ':' :: t) h0.symm
                · rw [if_neg hcond] at h
                  simp at h
              · rw [if_neg hx] at h
                simp at h

/-- Inversion of the anchored location regex: a successful match
exhibits the grammar decomposition up to one trailing newline. -/
theorem locMatch_inv (l : List Char) (p : List Char) (n : Nat)
    (h : locMatch l = some (p, n)) :
    p ≠ [] ∧ (∀ c ∈ p, c ≠ ':') ∧
    ∃ ds, ds ≠ [] ∧ (∀ c ∈ ds, isPyDigit c = true) ∧ n = intOfPyDigits ds ∧
      ∃ core, (l = core ∨ l = core ++ ['\n']) ∧
        (core = p ++ ':' :: ds ∨
          ∃ es, es ≠ [] ∧ (∀ c ∈ es, isPyDigit c = true) ∧
            core = p ++ ':' :: (ds ++ '-' :: es)) := by
  unfold locMatch at h
  obtain ⟨hpne, hpc, ds, hdne, hdd, hn, hform⟩ := locCore_inv (stripNl l) p n h
  exact ⟨hpne, hpc, ds, hdne, hdd, hn, stripNl l, stripNl_self_or l, hform⟩

/-- Rebuilding a string from its characters. -/
theorem strEta (s : String) : String.mk s.data = s := strExt rfl

/-- Character list of `s ++ "\n"`. -/
theorem data_nl (s : String) : (s ++ "\n").data = s.data ++ ['\n'] := by
  rw [String.data_append]

/-- Character list of `p ++ ":" ++ l`. -/
theorem data_colon (p l : String) :
    (p ++ ":" ++ l).data = p.data ++ ':' :: l.data := by
  have hc : (":" : String).data = [':'] := rfl
  rw [String.data_append, String.data_append, hc, List.append_assoc,
    List.singleton_append]

/-- Character list of `p ++ ":" ++ l ++ "-" ++ e`. -/
theorem data_colon_dash (p l e : String) :
    (p ++ ":" ++ l ++ "-" ++ e).data = p.data ++ ':' :: (l.data ++ '-' :: e.data) := by
  have hc : (":" : String).data = [':'] := rfl
  have hd : ("-" : String).data = ['-'] := rfl
  simp only [String.data_append, hc, hd, List.append_assoc, List.singleton_append,
    List.cons_append, List.nil_append]

/-- A nonempty character list gives a string different from `""`. -/
theorem strMk_ne_empty {l : List Char} (h : l ≠ []) : String.mk l ≠ "" := by
  intro hc
  exact h (congrArg String.data hc)

/-- C4, counterexample: the string `"x.py:0"` matches the claimed
grammar (path `x.py`, line digit string `0`), so by the claim its
normalization should yield a positive start line; the code yields line
0, which is not positive. -/
theorem c4_counterexample :
    ("x.py:0" : String) = "x.py" ++ ":" ++ "0" ∧
    ("x.py" : String).data ≠ [] ∧ (∀ c ∈ ("x.py" : String).data, c ≠ ':') ∧
    ("0" : String).data ≠ [] ∧ (∀ c ∈ ("0" : String).data, c.isDigit = true) ∧
    parse_location "x.py:0" = (some "x.py", some 0) ∧ ¬ 0 < 0 :=
  ⟨rfl, by decide, by decide, by decide, by decide, by decide, by decide⟩

/-- C4 (amended): every location string matching the language of the
anchored regex — `<path>:<line>[-<end>]`, path non-empty and
colon-free, line and optional end non-empty strings of Unicode decimal
digits (`\d` is category `Nd`, not only ASCII), with `$` also allowing
one trailing newline — parses to the normalized path and the decimal
value of the start line digits (which is 0 when the digit string is
all zeroes, not always positive), discarding the range suffix; every
other string yields `(None, None)` — never an error. -/
theorem c4_location_grammar :
    (∀ p l : String, p.data ≠ [] → (∀ c ∈ p.data, c ≠ ':') →
      l.data ≠ [] → (∀ c ∈ l.data, isPyDigit c = true) →
      parse_location (p ++ ":" ++ l) =
        (some (normalize_file_path p), some (intOfPyDigits l.data)) ∧
      parse_location (p ++ ":" ++ l ++ "\n") =
        (some (normalize_file_path p), some (intOfPyDigits l.data))) ∧
    (∀ p l e : String, p.data ≠ [] → (∀ c ∈ p.data, c ≠ ':') →
      l.data ≠ [] → (∀ c ∈ l.data, isPyDigit c = true) →
      e.data ≠ [] → (∀ c ∈ e.data, isPyDigit c = true) →
      parse_location (p ++ ":" ++ l ++ "-" ++ e) =
        (some (normalize_file_path p), some (intOfPyDigits l.data)) ∧
      parse_location (p ++ ":" ++ l ++ "-" ++ e ++ "\n") =
        (some (normalize_file_path p), some (intOfPyDigits l.data))) ∧
    (∀ s : String, parse_location s = (Option.none, Option.none) ∨
      ∃ p l : String, p ≠ "" ∧ (∀ c ∈ p.data, c ≠ ':') ∧ l ≠ "" ∧
        (∀ c ∈ l.data, isPyDigit c = true) ∧
        parse_location s = (some (normalize_file_path p), some (intOfPyDigits l.data)) ∧
        ((s = p ++ ":" ++ l ∨ s = p ++ ":" ++ l ++ "\n") ∨
          ∃ e : String, e ≠ "" ∧ (∀ c ∈ e.data, isPyDigit c = true) ∧
            (s = p ++ ":" ++ l ++ "-" ++ e ∨
              s = p ++ ":" ++ l ++ "-" ++ e ++ "\n"))) := by
  refine ⟨?_, ?_, ?_⟩
  · intro p l hp hpc hl hld
    constructor
    · unfold parse_location
      rw [data_colon, locMatch_plain p.data l.data hp hpc hl hld]
    · unfold parse_location
      rw [data_nl, data_colon, locMatch_plain_nl p.data l.data hp hpc hl hld]
  · intro p l e hp hpc hl hld he hed
    constructor
    · unfold parse_location
      rw [data_colon_dash,
        locMatch_range p.data l.data e.data hp hpc hl hld he hed]
    · unfold parse_location
      rw [data_nl, data_colon_dash,
        locMatch_range_nl p.data l.data e.data hp hpc hl hld he hed]
  · intro s
    cases hm : locMatch s.data with
    | none =>
        left
        unfold parse_location
        rw [hm]
    | some pr =>
        right
        obtain ⟨pd, n⟩ := pr
        obtain ⟨hpne, hpc, ds, hdne, hdd, hn, core, hor, hform⟩ :=
          locMatch_inv s.data pd n hm
        refine ⟨String.mk pd, String.mk ds, strMk_ne_empty hpne, hpc,
          strMk_ne_empty hdne, hdd, ?_, ?_⟩
        · unfold parse_location
          rw [hm, hn]
        · cases hform with
          | inl hf =>
              left
              cases hor with
              | inl ho =>
                  left
                  apply strExt
                  rw [data_colon, ho, hf]
              | inr ho =>
                  right
                  apply strExt
                  rw [data_nl, data_colon, ho, hf]
          | inr hf =>
              obtain ⟨es, hene, hed, hf⟩ := hf
              right
              refine ⟨String.mk es, strMk_ne_empty hene, hed, ?_⟩
              cases hor with
              | inl ho =>
                  left
                  apply strExt
                  rw [data_colon_dash, ho, hf]
              | inr ho =>
                  right
                  apply strExt
                  rw [data_nl, data_colon_dash, ho, hf]

/-- C4 witness: the grammar cases of the amended theorem applied at
`"a/b.py:12"` (with and without a trailing newline), at an
Arabic-Indic digit line (code point 1635, value 3), and at
`"a/b.py:12-20"`; and the skip case of the theorem at
`"not-a-location"`. -/
theorem c4_witness :
    (parse_location ("a/b.py" ++ ":" ++ "12") =
      (some (normalize_file_path "a/b.py"), some (intOfPyDigits ("12" : String).data)) ∧
     parse_location ("a/b.py" ++ ":" ++ "12" ++ "\n") =
      (some (normalize_file_path "a/b.py"), some (intOfPyDigits ("12" : String).data))) ∧
    parse_location ("a/b.py" ++ ":" ++ String.mk [Char.ofNat 1635]) =
      (some (normalize_file_path "a/b.py"),
       some (intOfPyDigits (String.mk [Char.ofNat 1635]).data)) ∧
    parse_location ("a/b.py" ++ ":" ++ "12" ++ "-" ++ "20") =
      (some (normalize_file_path "a/b.py"), some (intOfPyDigits ("12" : String).data)) ∧
    (parse_location "not-a-location" = (Option.none, Option.none) ∨
      ∃ p l : String, p ≠ "" ∧ (∀ c ∈ p.data, c ≠ ':') ∧ l ≠ "" ∧
        (∀ c ∈ l.data, isPyDigit c = true) ∧
        parse_location "not-a-location" =
          (some (normalize_file_path p), some (intOfPyDigits l.data)) ∧
        ((("not-a-location" : String) = p ++ ":" ++ l ∨
            ("not-a-location" : String) = p ++ ":" ++ l ++ "\n") ∨
          ∃ e : String, e ≠ "" ∧ (∀ c ∈ e.data, isPyDigit c = true) ∧
            (("not-a-location" : String) = p ++ ":" ++ l ++ "-" ++ e ∨
              ("not-a-location" : String) = p ++ ":" ++ l ++ "-" ++ e ++ "\n"))) :=
  ⟨c4_location_grammar.1 "a/b.py" "12" (by decide) (by decide) (by decide) (by decide),
   (c4_location_grammar.1 "a/b.py" (String.mk [Char.ofNat 1635]) (by decide)
     (by decide) (by decide) (by decide)).1,
   (c4_location_grammar.2.1 "a/b.py" "12" "20" (by decide) (by decide) (by decide)
     (by decide) (by decide) (by decide)).1,
   c4_location_grammar.2.2 "not-a-location"⟩

/-! ## Claim C5 — path normalization -/

/-- `findMatchingPre` fails exactly when no prefix matches. -/
theorem findMatchingPre_none (ps : List String) (fp : String) :
    findMatchingPre ps fp = Option.none ↔
    ∀ pre ∈ ps, pre.data.isPrefixOf fp.data = false := by
  induction ps with
  | nil => simp [findMatchingPre]
  | cons p rest ih =>
      by_cases h : p.data.isPrefixOf fp.data = true
      · rw [findMatchingPre, if_pos h]
        constructor
        · intro hc; exact Option.noConfusion hc
        · intro hall
          have h2 := hall p (by simp)
          rw [h] at h2
          exact Bool.noConfusion h2
      · rw [findMatchingPre, if_neg h, ih]
        constructor
        · intro hall pre hm
          rcases List.mem_cons.mp hm with rfl | hm2
          · cases hx : pre.data.isPrefixOf fp.data
            · rfl
            · exact absurd hx h
          · exact hall pre hm2
        · intro hall pre hm
          exact hall pre (List.mem_cons_of_mem _ hm)

/-- `findMatchingPre` succeeds only with a matching member. -/
theorem findMatchingPre_some (ps : List String) (fp pre : String)
    (h : findMatchingPre ps fp = some pre) :
    pre ∈ ps ∧ pre.data.isPrefixOf fp.data = true := by
  induction ps with
  | nil => simp [findMatchingPre] at h
  | cons p rest ih =>
      by_cases hp : p.data.isPrefixOf fp.data
      · rw [findMatchingPre, if_pos hp] at h
        injection h with h1
        subst h1
        exact ⟨by simp, hp⟩
      · rw [findMatchingPre, if_neg hp] at h
        obtain ⟨hm, hpre⟩ := ih h
        exact ⟨by simp [hm], hpre⟩

/-- C5: a path starting with a known Zuul execution-root prefix is
normalized by dropping the matched prefix and then the first two
remaining slash-separated segments when `split('/', 2)` yields three
parts; paths that do not start with a slash pass through unchanged; and
the two concrete examples of the claim. -/
theorem c5_path_normalization :
    (∀ fp pre : String, pre ∈ zuulPrefixes → pre.data.isPrefixOf fp.data = true →
      ∃ pre2, pre2 ∈ zuulPrefixes ∧ pre2.data.isPrefixOf fp.data = true ∧
        findMatchingPre zuulPrefixes fp = some pre2 ∧
        normalize_file_path fp = stripOrgProject (strDrop fp pre2.length)) ∧
    (∀ fp : String, fp.data.head? ≠ some '/' → normalize_file_path fp = fp) ∧
    parse_location "/home/zuul/src/opendev.org/openstack/nova/nova/compute/manager.py:140" =
      (some "nova/compute/manager.py", some 140) ∧
    parse_location "roles/ai_code_review/tasks/main.yaml:25" =
      (some "roles/ai_code_review/tasks/main.yaml", some 25) := by
  refine ⟨?_, ?_, by decide, by decide⟩
  · intro fp pre hmem hpre
    cases hf : findMatchingPre zuulPrefixes fp with
    | none =>
        rw [(findMatchingPre_none _ _).mp hf pre hmem] at hpre
        exact Bool.noConfusion hpre
    | some pre2 =>
        obtain ⟨hm2, hp2⟩ := findMatchingPre_some _ _ _ hf
        refine ⟨pre2, hm2, hp2, rfl, ?_⟩
        unfold normalize_file_path
        rw [hf]
  · intro fp hh
    have hnone : findMatchingPre zuulPrefixes fp = Option.none := by
      rw [findMatchingPre_none]
      intro pre hmem
      cases hp : pre.data.isPrefixOf fp.data
      · rfl
      · exfalso
        obtain ⟨t, ht⟩ := List.isPrefixOf_iff_prefix.mp hp
        fin_cases hmem <;>
          · rw [← ht] at hh
            simp at hh
    unfold normalize_file_path
    rw [hnone]
    cases hd : fp.data with
    | nil => rfl
    | cons c rest =>
        have hc : c ≠ '/' := by
          intro hcc
          rw [hd, hcc] at hh
          simp at hh
        simp [hc]

/-- C5 witness: the amended statement applied at a Zuul-rooted path and
at a relative path. -/
theorem c5_witness :
    (∃ pre2, pre2 ∈ zuulPrefixes ∧
      pre2.data.isPrefixOf
        ("/home/zuul/src/opendev.org/openstack/nova/nova/api.py" : String).data = true ∧
      findMatchingPre zuulPrefixes
        "/home/zuul/src/opendev.org/openstack/nova/nova/api.py" = some pre2 ∧
      normalize_file_path "/home/zuul/src/opendev.org/openstack/nova/nova/api.py" =
        stripOrgProject
          (strDrop "/home/zuul/src/opendev.org/openstack/nova/nova/api.py" pre2.length)) ∧
    normalize_file_path "roles/x.yaml" = "roles/x.yaml" :=
  ⟨c5_path_normalization.1 _ "/home/zuul/src/opendev.org/" (by decide) (by decide),
   c5_path_normalization.2.1 "roles/x.yaml" (by decide)⟩

/-! ## Claim C6 — statistics section -/

set_option maxRecDepth 100000 in
/-- C6, counterexample: the rendered total is read from the document's
declared `statistics.total` field, not computed: with counts 1,0,0,0
and a declared total of 5, the section shows 5 — not the sum 1. -/
theorem c6_counterexample :
    ∃ html,
      render_statistics_section (.dict [("critical", .int 1), ("high", .int 0),
        ("warnings", .int 0), ("suggestions", .int 0), ("total", .int 5)]) = some html ∧
      strContains html "5 total findings" = true ∧
      strContains html "1 total findings" = false ∧
      (1 + 0 + 0 + 0 : Int) ≠ 5 := by
  refine ⟨_, rfl, by decide, by decide, by decide⟩

/-- C6 (amended): the statistics section renders five numbers —
critical, high, warnings, suggestions and a total — where each number,
the total included, is taken from the corresponding field of the
document's declared `statistics` mapping (default 0); the total is not
recomputed, so it renders any declared value `t` whether or not `t`
equals the sum of the four severity counts. -/
theorem c6_statistics_section (c h w sg t : Int) :
    ∃ html, render_statistics_section (.dict [("critical", .int c), ("high", .int h),
        ("warnings", .int w), ("suggestions", .int sg), ("total", .int t)]) = some html ∧
      strContains html (toString c ++ " critical issues") = true ∧
      strContains html (toString h ++ " high issues") = true ∧
      strContains html (toString w ++ " warnings") = true ∧
      strContains html (toString sg ++ " suggestions") = true ∧
      strContains html (toString t ++ " total findings") = true := by
  refine ⟨_, rfl, ?_, ?_, ?_, ?_, ?_⟩ <;>
    · apply strContains_mem
      simp [assocFind, pyStrOf, pyReprOf]

/-- C6 witness: the amended theorem applied at counts 1,0,0,0 with the
declared total 5. -/
theorem c6_witness :
    ∃ html, render_statistics_section (.dict [("critical", .int 1), ("high", .int 0),
        ("warnings", .int 0), ("suggestions", .int 0), ("total", .int 5)]) = some html ∧
      strContains html (toString (1 : Int) ++ " critical issues") = true ∧
      strContains html (toString (0 : Int) ++ " high issues") = true ∧
      strContains html (toString (0 : Int) ++ " warnings") = true ∧
      strContains html (toString (0 : Int) ++ " suggestions") = true ∧
      strContains html (toString (5 : Int) ++ " total findings") = true :=
  c6_statistics_section 1 0 0 0 5

/-! ## Claim C7 — the playbooks schema validator -/

/-- A minimal payload wrapping the given `file_comments` entries. -/
def mkPayload (fkvs : List (String × PyVal)) : PyVal :=
  .dict [("zuul", .dict [("file_comments", .dict fkvs)])]

/-- C7, counterexample: the claim says any list element lacking a
string `message` is rejected, but the validator only checks that the
key is present — a payload whose `message` is the integer 5 (not a
string) passes validation. -/
theorem c7_counterexample :
    validate_schema (.dict [("zuul", .dict [("file_comments",
      .dict [("f.py", .list [.dict [("message", .int 5)]])])])]) =
      some (true, "Schema validation passed") ∧
    pyIsStr (.int 5) = false :=
  ⟨rfl, rfl⟩

/-- C7 (amended): `validate_schema` returns `(ok, error)` and rejects a
payload missing the top-level `zuul` key, a `zuul` mapping missing
`file_comments`, a non-mapping `file_comments` (naming the offending
type), a per-file comments value that is not a list (the message names
the file path, e.g. `f.py`), a list element that is not a mapping or
lacks a `message` key (these two messages carry the record index), a
present hashable `level` outside the set `{info, warning, error}`, and
a present `line` that is not an integer (booleans count as integers,
as in Python) — but the string-ness of `message` is not checked, the
level/line error messages name only the file path, not the record
index, and a present unhashable `level` (a list or dict) is not
rejected gracefully: the set membership test raises an uncaught
`TypeError`; a single-comment payload with any `message` value, an
integer `line` and a valid `level` passes. -/
theorem c7_schema_validator :
    (∀ kvs, assocFind kvs "zuul" = Option.none →
      validate_schema (.dict kvs) = some (false, "Missing required key: zuul")) ∧
    (∀ kvs zkvs, assocFind kvs "zuul" = some (.dict zkvs) →
      assocFind zkvs "file_comments" = Option.none →
      validate_schema (.dict kvs) =
        some (false, "Missing required key: zuul.file_comments")) ∧
    (∀ kvs zkvs fcv, assocFind kvs "zuul" = some (.dict zkvs) →
      assocFind zkvs "file_comments" = some fcv → pyIsDict fcv = false →
      validate_schema (.dict kvs) =
        some (false, "file_comments must be a dict, got " ++ pyTypeName fcv)) ∧
    (∀ fp v, pyIsList v = false →
      validate_schema (mkPayload [(fp, v)]) =
        some (false, "Comments for " ++ fp ++ " must be a list") ∧
      strContains ("Comments for " ++ fp ++ " must be a list") fp = true) ∧
    (∀ fp c, pyIsDict c = false →
      validate_schema (mkPayload [(fp, .list [c])]) =
        some (false, "Comment 0 in " ++ fp ++ " must be a dict")) ∧
    (∀ fp ckvs, assocFind ckvs "message" = Option.none →
      validate_schema (mkPayload [(fp, .list [.dict ckvs])]) =
        some (false, "Comment 0 in " ++ fp ++ " missing required message field")) ∧
    (∀ fp ckvs m lv, assocFind ckvs "message" = some m →
      assocFind ckvs "level" = some lv → pyHashable lv = true →
      levelValidB lv = false →
      validate_schema (mkPayload [(fp, .list [.dict ckvs])]) =
        some (false, "Invalid level " ++ pyStrOf lv ++ " in " ++ fp ++
          ", must be info/warning/error")) ∧
    (∀ fp ckvs m lv, assocFind ckvs "message" = some m →
      assocFind ckvs "level" = some lv → pyHashable lv = false →
      validate_schema (mkPayload [(fp, .list [.dict ckvs])]) = Option.none) ∧
    (∀ fp ckvs m ln, assocFind ckvs "message" = some m →
      assocFind ckvs "level" = Option.none →
      assocFind ckvs "line" = some ln → pyIsInt ln = false →
      validate_schema (mkPayload [(fp, .list [.dict ckvs])]) =
        some (false, "line must be integer in " ++ fp ++ ", got " ++ pyTypeName ln)) ∧
    (∀ fp m n lv, lv ∈ (["info", "warning", "error"] : List String) →
      validate_schema (mkPayload [(fp, .list [.dict
          [("message", m), ("line", .int n), ("level", .str lv)]])]) =
        some (true, "Schema validation passed")) := by
  refine ⟨?_, ?_, ?_, ?_, ?_, ?_, ?_, ?_, ?_, ?_⟩
  · intro kvs hz
    unfold validate_schema
    dsimp only
    rw [hz]
  · intro kvs zkvs hz hfc
    unfold validate_schema
    dsimp only
    rw [hz]
    dsimp only
    rw [hfc]
  · intro kvs zkvs fcv hz hfc hnd
    unfold validate_schema
    dsimp only
    rw [hz]
    dsimp only
    rw [hfc]
    cases fcv <;> simp_all [pyIsDict]
  · intro fp v hnl
    refine ⟨?_, ?_⟩
    · unfold validate_schema mkPayload pbCheckFiles
      cases v <;> simp_all [pyIsList, assocFind]
    · exact strContains_appR _ (strContains_appL _ (strContains_self _))
  · intro fp c hnd
    unfold validate_schema mkPayload pbCheckFiles pbCheckList pbCheckComment
    cases c <;> simp_all [pyIsDict, assocFind] <;> rfl
  · intro fp ckvs hm
    unfold validate_schema mkPayload pbCheckFiles pbCheckList pbCheckComment
    simp [assocFind, hm]
    rfl
  · intro fp ckvs m lv hm hl hh hlv
    unfold validate_schema mkPayload pbCheckFiles pbCheckList pbCheckComment
    simp [assocFind, hm, hl, hh, hlv]
  · intro fp ckvs m lv hm hl hh
    unfold validate_schema mkPayload pbCheckFiles pbCheckList pbCheckComment
    simp [assocFind, hm, hl, hh]
  · intro fp ckvs m ln hm hl hln hni
    unfold validate_schema mkPayload pbCheckFiles pbCheckList pbCheckComment
      pbCheckLine
    simp [assocFind, hm, hl, hln, hni]
  · intro fp m n lv hlv
    unfold validate_schema mkPayload pbCheckFiles pbCheckList pbCheckComment
      pbCheckLine
    simp only [List.mem_cons, List.not_mem_nil, or_false] at hlv
    rcases hlv with rfl | rfl | rfl <;>
      simp [assocFind, levelValidB, pyHashable, pyIsInt, pbCheckLine,
        pbCheckList, pbCheckFiles]

/-- C7 witness: the amended theorem applied at an empty payload, at the
claim's `f.py` non-list example, at a comment whose `level` is the
(unhashable) empty list, and at a passing single-comment payload. -/
theorem c7_witness :
    validate_schema (.dict []) = some (false, "Missing required key: zuul") ∧
    validate_schema (mkPayload [("f.py", .str "not-a-list")]) =
      some (false, "Comments for " ++ "f.py" ++ " must be a list") ∧
    strContains ("Comments for " ++ "f.py" ++ " must be a list") "f.py" = true ∧
    validate_schema (mkPayload [("f.py", .list [.dict
        [("message", .str "ok"), ("level", .list [])]])]) = Option.none ∧
    validate_schema (mkPayload [("f.py", .list [.dict
        [("message", .str "ok"), ("line", .int 3), ("level", .str "error")]])]) =
      some (true, "Schema validation passed") :=
  ⟨c7_schema_validator.1 [] rfl,
   (c7_schema_validator.2.2.2.1 "f.py" (.str "not-a-list") rfl).1,
   (c7_schema_validator.2.2.2.1 "f.py" (.str "not-a-list") rfl).2,
   c7_schema_validator.2.2.2.2.2.2.2.1 "f.py"
     [("message", .str "ok"), ("level", .list [])] (.str "ok") (.list [])
     rfl rfl rfl,
   c7_schema_validator.2.2.2.2.2.2.2.2.2 "f.py" (.str "ok") 3 "error" (by simp)⟩

/-! ## Claim C8 — issues with missing or unparseable locations -/

/-- An issue with an absent, empty or unparseable location string is
skipped by the CI-comment extraction without error. -/
theorem processIssue_skip (label : String) (fc : FileComments)
    (kvs : List (String × PyVal))
    (hloc : assocFind kvs "location" = Option.none ∨
      assocFind kvs "location" = some (.str "") ∨
      ∃ ls, assocFind kvs "location" = some (.str ls) ∧
        locMatch ls.data = Option.none) :
    processIssue label fc (.dict kvs) = some fc := by
  unfold processIssue
  dsimp only
  rcases hloc with h | h | ⟨ls, h, hm⟩
  · rw [h]
    simp [pyFalsy]
  · rw [h]
    simp [pyFalsy]
  · rw [h]
    by_cases hls : ls = ""
    · subst hls
      simp [pyFalsy]
    · have hfalse : pyFalsy (.str ls) = false := by simp [pyFalsy, hls]
      simp only [Option.getD_some, hfalse, Bool.false_eq_true, if_false]
      unfold parse_location
      rw [hm]

/-- Single-issue extraction yields no records when the issue's location
is absent, empty or unparseable, for each severity key. -/
theorem extract_single_skip (sevKey : String)
    (hsk : sevKey ∈ (["critical", "high", "warnings", "suggestions"] : List String))
    (kvs : List (String × PyVal))
    (hloc : assocFind kvs "location" = Option.none ∨
      assocFind kvs "location" = some (.str "") ∨
      ∃ ls, assocFind kvs "location" = some (.str ls) ∧
        locMatch ls.data = Option.none) :
    extract_file_comments
      (.dict [("issues", .dict [(sevKey, .list [.dict kvs])])]) = some [] := by
  have hskip := processIssue_skip
  fin_cases hsk <;>
    simp [extract_file_comments, handleSeverity, pyGetD, assocFind, pyIterate,
      processList, hskip _ _ _ hloc]

/-- Single-issue HTML rendering contains the issue's card, for each
severity key. -/
theorem render_all_single (sevKey : String)
    (hsk : sevKey ∈ (["critical", "high", "warnings", "suggestions"] : List String))
    (issue : PyVal) (card : String)
    (hcard : render_issue_card issue (rstripS sevKey) 1 1 = some card) :
    ∃ h, render_all_issues (.dict [(sevKey, .list [issue])]) = some h ∧
      strContains h card = true := by
  fin_cases hsk
  · have hc : render_issue_card issue "critical" 1 1 = some card := hcard
    simp [render_all_issues, issuesSection, pyGetD, assocFind, pyFalsy, pyIterate,
      renderCardsAux, hc]
    exact joinNl_contains (by simp)
  · have hc : render_issue_card issue "high" 1 1 = some card := hcard
    simp [render_all_issues, issuesSection, pyGetD, assocFind, pyFalsy, pyIterate,
      renderCardsAux, hc]
    exact joinNl_contains (by simp)
  · have hc : render_issue_card issue "warning" 1 1 = some card := hcard
    simp [render_all_issues, issuesSection, pyGetD, assocFind, pyFalsy, pyIterate,
      renderCardsAux, hc]
    exact joinNl_contains (by simp)
  · have hc : render_issue_card issue "suggestion" 1 1 = some card := hcard
    simp [render_all_issues, issuesSection, pyGetD, assocFind, pyFalsy, pyIterate,
      renderCardsAux, hc]
    exact joinNl_contains (by simp)

/-- C8: an issue whose location is absent, empty, or fails location
normalization (e.g. `"not-a-location"`) produces no record in the
file-comment set and causes no error (extraction still succeeds), while
the same issue still renders in the HTML output (its card occurs in the
rendered issues HTML). -/
theorem c8_skip_but_render (sevKey : String)
    (hsk : sevKey ∈ (["critical", "high", "warnings", "suggestions"] : List String))
    (kvs : List (String × PyVal))
    (hloc : assocFind kvs "location" = Option.none ∨
      assocFind kvs "location" = some (.str "") ∨
      ∃ ls, assocFind kvs "location" = some (.str ls) ∧
        locMatch ls.data = Option.none) :
    extract_file_comments
      (.dict [("issues", .dict [(sevKey, .list [.dict kvs])])]) = some [] ∧
    (∀ card, render_issue_card (.dict kvs) (rstripS sevKey) 1 1 = some card →
      ∃ h, render_all_issues (.dict [(sevKey, .list [.dict kvs])]) = some h ∧
        strContains h card = true) :=
  ⟨extract_single_skip sevKey hsk kvs hloc,
   fun card hcard => render_all_single sevKey hsk (.dict kvs) card hcard⟩

/-- C8 witness: the issue `{"location": "not-a-location"}` under the
`critical` key is dropped from extraction but its card occurs in the
rendered HTML. -/
theorem c8_witness :
    extract_file_comments
      (.dict [("issues", .dict [("critical",
        .list [.dict [("location", .str "not-a-location")]])])]) = some [] ∧
    (∀ card, render_issue_card (.dict [("location", .str "not-a-location")])
        (rstripS "critical") 1 1 = some card →
      ∃ h, render_all_issues
          (.dict [("critical", .list [.dict [("location", .str "not-a-location")]])]) =
          some h ∧ strContains h card = true) :=
  c8_skip_but_render "critical" (by simp)
    [("location", .str "not-a-location")]
    (Or.inr (Or.inr ⟨"not-a-location", rfl, by decide⟩))

/-! ## Claim C1 — the critical-issue comment record -/

/-- CPython formats the double 0.95 to one decimal as `0.9`. -/
theorem conf095_formats_09 : pyFormatFixed1 (.float double095) = some "0.9" := by
  decide

/-- The message formatted for a critical issue with the claim's
confidence and risk contains the severity/confidence line and the risk
line as produced by the code (markdown-bold labels, confidence 0.9). -/
theorem format_critical_contains (kvs : List (String × PyVal))
    (hconf : assocFind kvs "confidence" = some (.float double095))
    (hrisk : assocFind kvs "risk" = some (.str "High"))
    (hdesc : ∀ d, assocFind kvs "description" = some d → ∃ ds, d = PyVal.str ds)
    (hrec : ∀ r, assocFind kvs "recommendation" = some r → ∃ rs, r = PyVal.str rs) :
    ∃ m, format_issue_message (.dict kvs) "critical" = some m ∧
      strContains m "**Severity**: CRITICAL | **Confidence**: 0.9" = true ∧
      strContains m "**Risk**: High" = true := by
  have hds : ∃ ds, asPyStr ((assocFind kvs "description").getD
      (.str "No description")) = some ds := by
    cases hd : assocFind kvs "description" with
    | none => exact ⟨"No description", rfl⟩
    | some d =>
        obtain ⟨ds, rfl⟩ := hdesc d hd
        exact ⟨ds, rfl⟩
  obtain ⟨ds, hds⟩ := hds
  unfold format_issue_message
  dsimp only
  rw [hds, hconf, hrisk]
  cases hr : assocFind kvs "recommendation" with
  | none =>
      refine ⟨_, rfl, ?_, ?_⟩
      · apply joinNl_contains
        simp only [List.mem_append, List.mem_cons]
        have he : ("**Severity**: " ++ toUpperStr "critical" ++ " | **Confidence**: " ++
            formatFixed1Rat double095) = "**Severity**: CRITICAL | **Confidence**: 0.9" := by
          decide
        tauto
      · apply joinNl_contains
        simp only [List.mem_append, List.mem_cons]
        have he : ("**Risk**: " ++ pyStrOf (.str "High")) = "**Risk**: High" := by decide
        tauto
  | some r =>
      obtain ⟨rs, rfl⟩ := hrec r hr
      refine ⟨_, rfl, ?_, ?_⟩
      · apply joinNl_contains
        simp only [List.mem_append, List.mem_cons]
        have he : ("**Severity**: " ++ toUpperStr "critical" ++ " | **Confidence**: " ++
            formatFixed1Rat double095) = "**Severity**: CRITICAL | **Confidence**: 0.9" := by
          decide
        tauto
      · apply joinNl_contains
        simp only [List.mem_append, List.mem_cons]
        have he : ("**Risk**: " ++ pyStrOf (.str "High")) = "**Risk**: High" := by decide
        tauto

set_option maxRecDepth 400000 in
/-- C1, counterexample: for the claim's critical issue (confidence the
double 0.95, location `x.py:10`, risk `High`) the code produces one
`x.py` record at line 10 with level `error`, but the message carries
markdown-bold field labels and confidence `0.9` (CPython's `.1f`
rounding of the double 0.95), so it contains neither the literal
substring `"Severity: CRITICAL | Confidence: 1.0"` nor the literal
substring `"Risk: High"`. -/
theorem c1_counterexample :
    ∃ msg,
      extract_file_comments (.dict [("issues", .dict [("critical", .list [.dict
        [("description", .str "Bad"), ("confidence", .float double095),
         ("location", .str "x.py:10"), ("risk", .str "High")]])])]) =
        some [("x.py", [.dict [("line", .int 10), ("message", .str msg),
          ("level", .str "error")]])] ∧
      strContains msg "Severity: CRITICAL | Confidence: 1.0" = false ∧
      strContains msg "Risk: High" = false := by
  refine ⟨_, rfl, by decide, by decide⟩

/-- C1 (amended): for every issue dictionary under the `critical` key
with location `"x.py:10"`, confidence the IEEE-754 double nearest 0.95,
and risk `"High"` (description and recommendation, when present,
strings), the CI-comment renderer produces exactly one comment record,
filed under path `x.py`, with line 10 and level `error`, whose message
contains the literal substrings
`"**Severity**: CRITICAL | **Confidence**: 0.9"` (the code renders
markdown-bold labels and formats the double 0.95 to one decimal as 0.9)
and `"**Risk**: High"`. -/
theorem c1_critical_record (kvs : List (String × PyVal))
    (hloc : assocFind kvs "location" = some (.str "x.py:10"))
    (hconf : assocFind kvs "confidence" = some (.float double095))
    (hrisk : assocFind kvs "risk" = some (.str "High"))
    (hdesc : ∀ d, assocFind kvs "description" = some d → ∃ ds, d = PyVal.str ds)
    (hrec : ∀ r, assocFind kvs "recommendation" = some r → ∃ rs, r = PyVal.str rs) :
    ∃ msg,
      extract_file_comments
        (.dict [("issues", .dict [("critical", .list [.dict kvs])])]) =
        some [("x.py", [.dict [("line", .int 10), ("message", .str msg),
          ("level", .str "error")]])] ∧
      strContains msg "**Severity**: CRITICAL | **Confidence**: 0.9" = true ∧
      strContains msg "**Risk**: High" = true := by
  obtain ⟨m, hfmt, hc1, hc2⟩ := format_critical_contains kvs hconf hrisk hdesc hrec
  refine ⟨m, ?_, hc1, hc2⟩
  have hfmt2 : format_issue_message (.dict kvs) (rstripS "critical") = some m := hfmt
  have hparse : parse_location "x.py:10" = (some "x.py", some 10) := by decide
  have hfalsy : pyFalsy (.str "x.py:10") = false := by decide
  have hlev : map_severity_to_level (rstripS "critical") = "error" := by decide
  simp [extract_file_comments, handleSeverity, pyGetD, assocFind, pyIterate,
    processList, processIssue, hloc, hparse, hfalsy, hfmt2, hlev, fcAdd]

/-- C1 witness: the amended theorem applied at the concrete issue of
the counterexample. -/
theorem c1_witness :
    ∃ msg,
      extract_file_comments (.dict [("issues", .dict [("critical", .list [.dict
        [("description", .str "Bad"), ("confidence", .float double095),
         ("location", .str "x.py:10"), ("risk", .str "High")]])])]) =
        some [("x.py", [.dict [("line", .int 10), ("message", .str msg),
          ("level", .str "error")]])] ∧
      strContains msg "**Severity**: CRITICAL | **Confidence**: 0.9" = true ∧
      strContains msg "**Risk**: High" = true :=
  c1_critical_record
    [("description", .str "Bad"), ("confidence", .float double095),
     ("location", .str "x.py:10"), ("risk", .str "High")]
    rfl rfl rfl
    (fun d hd => ⟨"Bad", by
      simpa [assocFind] using hd.symm⟩)
    (fun r hr => by simp [assocFind] at hr)

/-! ## Claim C3 — HTML escaping -/

/-- A review document whose critical issue carries a script payload in
its description. -/
def docScript : PyVal :=
  .dict [("issues", .dict [("critical",
    .list [.dict [("description", .str "<script>alert(1)</script>")]])])]

/-- The issue dictionary of `docScript`. -/
def issueScript : PyVal :=
  .dict [("description", .str "<script>alert(1)</script>")]

/-- The rendered document contains the issues HTML and the statistics
HTML verbatim, whenever all five sections render. -/
theorem render_template_contains (kvs : List (String × PyVal))
    (ctx stats ih pos sum : String)
    (h1 : render_context_section ((assocFind kvs "context").getD (.dict [])) = some ctx)
    (h2 : render_statistics_section ((assocFind kvs "statistics").getD (.dict [])) = some stats)
    (h3 : render_all_issues ((assocFind kvs "issues").getD (.dict [])) = some ih)
    (h4 : render_positive_observations
        ((assocFind kvs "positive_observations").getD (.list [])) = some pos)
    (h5 : render_summary_section ((assocFind kvs "summary").getD (.dict []))
        ((assocFind kvs "statistics").getD (.dict [])) = some sum) :
    ∃ H, render_html_template (.dict kvs) = some H ∧
      strContains H ih = true ∧ strContains H stats = true := by
  unfold render_html_template
  dsimp only
  rw [h1, h2, h3, h4, h5]
  refine ⟨_, rfl, ?_, ?_⟩
  · exact strContains_mem (by simp)
  · exact strContains_mem (by simp)

/-- C3: `escape_html` maps every character through `escChar` (each of
the five specials becomes its entity, with no exceptions for any
interpolated string), escaped output never contains a raw `<`, `>`,
`"` or `'`, and a description containing `<script>alert(1)</script>`
renders in the complete HTML document fully entity-escaped. -/
theorem c3_html_escaping :
    (∀ s : String, (escapeS s).data = (s.data.map escChar).flatten) ∧
    escChar '&' = "&amp;".data ∧ escChar '<' = "&lt;".data ∧
    escChar '>' = "&gt;".data ∧ escChar '"' = "&quot;".data ∧
    escChar quoteCh = "&#39;".data ∧
    (∀ (s : String) (c : Char), c ∈ (escapeS s).data →
      c ≠ '<' ∧ c ≠ '>' ∧ c ≠ '"' ∧ c ≠ quoteCh) ∧
    escapeS "<script>alert(1)</script>" = "&lt;script&gt;alert(1)&lt;/script&gt;" ∧
    (∃ H, render_html_template docScript = some H ∧
      strContains H "&lt;script&gt;alert(1)&lt;/script&gt;" = true) := by
  refine ⟨?_, by decide, by decide, by decide, by decide, by decide, ?_, by decide, ?_⟩
  · intro s
    exact escapeHtmlList_eq_join s.data
  · intro s c hc
    exact escaped_no_special hc
  · have hcard : render_issue_card issueScript "critical" 1 1 =
        some (cardHtml "critical" iconCritical "CRITICAL" 1 1
          (escapeS "<script>alert(1)</script>") (formatFixed1Rat 0)
          (joinNl ["<p><strong>Location</strong>: <code>" ++
            escape_html (.str "Unknown") ++ "</code></p>"])) := rfl
    have hcc : strContains
        (cardHtml "critical" iconCritical "CRITICAL" 1 1
          (escapeS "<script>alert(1)</script>") (formatFixed1Rat 0)
          (joinNl ["<p><strong>Location</strong>: <code>" ++
            escape_html (.str "Unknown") ++ "</code></p>"]))
        (escapeS "<script>alert(1)</script>") = true := by
      unfold cardHtml
      exact strContains_mem (by simp)
    obtain ⟨ih, hall, hcontain⟩ :=
      render_all_single "critical" (by simp) issueScript _ hcard
    have hih : strContains ih (escapeS "<script>alert(1)</script>") = true :=
      strContains_trans hcc hcontain
    obtain ⟨H, hH, hHih, _⟩ :=
      render_template_contains
        [("issues", .dict [("critical", .list [issueScript])])]
        _ _ ih _ _ rfl rfl hall rfl rfl
    refine ⟨H, hH, ?_⟩
    have hpat : escapeS "<script>alert(1)</script>" =
        "&lt;script&gt;alert(1)&lt;/script&gt;" := by decide
    rw [← hpat]
    exact strContains_trans hih hHih

/-- C3 witness: the no-raw-specials conjunct applied at the script
payload and the character `&` of its escaped form. -/
theorem c3_witness :
    '&' ∈ (escapeS "<script>alert(1)</script>").data ∧
    '&' ≠ '<' ∧ '&' ≠ '>' ∧ '&' ≠ '"' ∧ '&' ≠ quoteCh :=
  ⟨by decide, c3_html_escaping.2.2.2.2.2.2.1 "<script>alert(1)</script>" '&' (by decide)⟩

/-! ## Claim C10 — generated payloads always validate -/

/-- Shape of every comment record the extraction emits: the exact
three-key dict with a line of at least 1, a string message, and one of
the three levels. -/
def commentWF (c : PyVal) : Prop :=
  ∃ (n : Nat) (m lv : String),
    c = .dict [("line", .int (n : Int)), ("message", .str m), ("level", .str lv)] ∧
    1 ≤ n ∧ (lv = "error" ∨ lv = "warning" ∨ lv = "info")

/-- Every record in the accumulated file-comment set is well formed. -/
def fcWF (fc : FileComments) : Prop := ∀ kv ∈ fc, ∀ c ∈ kv.2, commentWF c

/-- The empty accumulator is well formed. -/
theorem fcWF_nil : fcWF [] := by
  intro kv hkv
  simp at hkv

/-- Adding a well-formed record preserves well-formedness. -/
theorem fcAdd_WF (fc : FileComments) (fp : String) (c : PyVal)
    (hfc : fcWF fc) (hc : commentWF c) : fcWF (fcAdd fc fp c) := by
  induction fc with
  | nil =>
      intro kv hkv c' hc'
      simp [fcAdd] at hkv
      subst hkv
      simp at hc'
      subst hc'
      exact hc
  | cons kv0 rest ih =>
      obtain ⟨k, cs⟩ := kv0
      intro kv hkv c' hc'
      by_cases hk : k = fp
      · rw [fcAdd, if_pos hk] at hkv
        rcases List.mem_cons.mp hkv with rfl | hm
        · rcases List.mem_append.mp hc' with hm2 | hm2
          · exact hfc (k, cs) (by simp) c' hm2
          · simp at hm2
            subst hm2
            exact hc
        · exact hfc kv (List.mem_cons_of_mem _ hm) c' hc'
      · rw [fcAdd, if_neg hk] at hkv
        rcases List.mem_cons.mp hkv with rfl | hm
        · exact hfc (k, cs) (by simp) c' hc'
        · exact ih (fun kv2 hkv2 => hfc kv2 (List.mem_cons_of_mem _ hkv2)) kv hm c' hc'

/-- Processing one issue preserves well-formedness of the accumulator. -/
theorem processIssue_WF (label : String) (fc : FileComments) (issue : PyVal)
    (fc2 : FileComments) (hfc : fcWF fc)
    (h : processIssue label fc issue = some fc2) : fcWF fc2 := by
  cases issue with
  | dict kvs =>
      unfold processIssue at h
      dsimp only at h
      split at h
      · cases h
        exact hfc
      · split at h
        · split at h
          · split at h
            · cases h
              exact hfc
            · rename_i ls hlseq fp ln hpeq hcond
              cases hm : format_issue_message (.dict kvs) label with
              | none => rw [hm] at h; simp at h
              | some m =>
                  rw [hm] at h
                  cases h
                  apply fcAdd_WF fc fp _ hfc
                  refine ⟨ln, m, map_severity_to_level label, rfl, ?_, level_mem label⟩
                  simp only [Bool.or_eq_true, decide_eq_true_eq, not_or] at hcond
                  omega
          · cases h
            exact hfc
        · exact Option.noConfusion h
  | str s => simp [processIssue] at h
  | int n => simp [processIssue] at h
  | float q => simp [processIssue] at h
  | bool b => simp [processIssue] at h
  | none => simp [processIssue] at h
  | list xs => simp [processIssue] at h

/-- Folding a severity's issues preserves well-formedness. -/
theorem processList_WF (label : String) :
    ∀ (items : List PyVal) (fc fc2 : FileComments), fcWF fc →
    processList label fc items = some fc2 → fcWF fc2 := by
  intro items
  induction items with
  | nil =>
      intro fc fc2 hfc h
      unfold processList at h
      cases h
      exact hfc
  | cons i rest ih =>
      intro fc fc2 hfc h
      unfold processList at h
      cases hp : processIssue label fc i with
      | none => rw [hp] at h; simp at h
      | some fcMid =>
          rw [hp] at h
          exact ih fcMid fc2 (processIssue_WF label fc i fcMid hfc hp) h

/-- One severity pass preserves well-formedness. -/
theorem handleSeverity_WF (issues : PyVal) (sk : String) (fc fc2 : FileComments)
    (hfc : fcWF fc) (h : handleSeverity issues sk fc = some fc2) : fcWF fc2 := by
  unfold handleSeverity at h
  simp only [bind, Option.bind_eq_some] at h
  obtain ⟨itemsV, hg, items, hi, hp⟩ := h
  exact processList_WF (rstripS sk) items fc fc2 hfc hp

/-- Every file-comment set the extraction produces is well formed. -/
theorem extract_file_comments_WF (d : PyVal) (fc : FileComments)
    (h : extract_file_comments d = some fc) : fcWF fc := by
  cases d with
  | dict kvs =>
      unfold extract_file_comments at h
      dsimp only at h
      simp only [bind, Option.bind_eq_some] at h
      obtain ⟨fc1, h1, fc2, h2, fc3, h3, h4⟩ := h
      have w1 := handleSeverity_WF _ _ _ _ fcWF_nil h1
      have w2 := handleSeverity_WF _ _ _ _ w1 h2
      have w3 := handleSeverity_WF _ _ _ _ w2 h3
      exact handleSeverity_WF _ _ _ _ w3 h4
  | str s => simp [extract_file_comments] at h
  | int n => simp [extract_file_comments] at h
  | float q => simp [extract_file_comments] at h
  | bool b => simp [extract_file_comments] at h
  | none => simp [extract_file_comments] at h
  | list xs => simp [extract_file_comments] at h

/-- A well-formed record passes the comment check of the boolean
validator. -/
theorem checkCommentB_of_WF (c : PyVal) (h : commentWF c) :
    checkCommentB c = true := by
  obtain ⟨n, m, lv, rfl, _, hlv⟩ := h
  unfold checkCommentB
  simp only [assocFind]
  norm_num [pyIsInt, pyIsStr]
  rcases hlv with rfl | rfl | rfl <;> simp

/-- A well-formed file-comment set passes the per-file checks of the
boolean validator. -/
theorem checkFilesB_of_WF (fc : FileComments) (h : fcWF fc) :
    checkFilesB (fc.map (fun kv => (kv.1, PyVal.list kv.2))) = true := by
  induction fc with
  | nil => rfl
  | cons kv rest ih =>
      obtain ⟨k, cs⟩ := kv
      unfold checkFilesB
      simp only [List.map_cons]
      rw [Bool.and_eq_true]
      constructor
      · rw [List.all_eq_true]
        intro c hc
        exact checkCommentB_of_WF c (h (k, cs) (by simp) c hc)
      · exact ih (fun kv2 hkv2 => h kv2 (List.mem_cons_of_mem _ hkv2))

/-- C10: whenever `generate_zuul_return_data` returns a payload, that
payload passes the boolean `validate_zuul_schema` gate of the same
script, and every generated comment record is the three-key mapping
with an integer line of at least 1, a string message, and a level in
`{error, warning, info}`, under a mapping-to-lists `file_comments`. -/
theorem c10_generated_payload_validates (d out : PyVal)
    (h : generate_zuul_return_data d = some out) :
    validate_zuul_schema out = some true ∧
    ∃ fc : FileComments, fcWF fc ∧
      out = .dict [("zuul", .dict [("file_comments",
        .dict (fc.map (fun kv => (kv.1, PyVal.list kv.2))))])] := by
  unfold generate_zuul_return_data at h
  cases he : extract_file_comments d with
  | none => rw [he] at h; simp at h
  | some fc =>
      rw [he] at h
      simp only [Option.map_some'] at h
      have hout := Option.some.inj h
      have hwf := extract_file_comments_WF d fc he
      refine ⟨?_, fc, hwf, hout.symm⟩
      rw [← hout]
      unfold validate_zuul_schema
      simp [assocFind, checkFilesB_of_WF fc hwf]

/-- C10 witness: the theorem applied at the empty review document,
whose generated payload is the empty file-comment mapping. -/
theorem c10_witness :
    generate_zuul_return_data (.dict []) =
      some (.dict [("zuul", .dict [("file_comments", .dict [])])]) ∧
    validate_zuul_schema (.dict [("zuul", .dict [("file_comments", .dict [])])]) =
      some true :=
  ⟨rfl,
   (c10_generated_payload_validates (.dict [])
     (.dict [("zuul", .dict [("file_comments", .dict [])])]) rfl).1⟩

/-! ## Claim C2 — tolerant decoding and wrapper handling -/

/-- Success of the longest-prefix search: the found prefix is a valid
JSON value and no longer prefix within the bound is. -/
theorem longestAux_some (l : List Char) :
    ∀ (k : Nat) (v : PyVal) (n : Nat),
    longestValuePrefixAux l k = some (v, n) →
    n ≤ k ∧ valueExact (l.take n) = some v ∧
    ∀ m, n < m → m ≤ k → valueExact (l.take m) = Option.none := by
  intro k
  induction k with
  | zero =>
      intro v n h
      simp [longestValuePrefixAux] at h
  | succ k ih =>
      intro v n h
      unfold longestValuePrefixAux at h
      cases hv : valueExact (l.take (k + 1)) with
      | some w =>
          rw [hv] at h
          injection h with h1
          injection h1 with h2 h3
          subst h2
          subst h3
          refine ⟨Nat.le_refl _, hv, ?_⟩
          intro m hm1 hm2
          omega
      | none =>
          rw [hv] at h
          obtain ⟨hn, hval, hmax⟩ := ih v n h
          refine ⟨Nat.le_succ_of_le hn, hval, ?_⟩
          intro m hm1 hm2
          rcases Nat.lt_or_ge m (k + 1) with hm3 | hm3
          · exact hmax m hm1 (by omega)
          · have : m = k + 1 := by omega
            rw [this]
            exact hv

/-- Failure of the longest-prefix search: no non-empty prefix within
the bound is a valid JSON value. -/
theorem longestAux_none (l : List Char) :
    ∀ k, longestValuePrefixAux l k = Option.none →
    ∀ n, 1 ≤ n → n ≤ k → valueExact (l.take n) = Option.none := by
  intro k
  induction k with
  | zero =>
      intro _ n h1 h2
      omega
  | succ k ih =>
      intro h n h1 h2
      unfold longestValuePrefixAux at h
      cases hv : valueExact (l.take (k + 1)) with
      | some w => rw [hv] at h; simp at h
      | none =>
          rw [hv] at h
          rcases Nat.lt_or_ge n (k + 1) with h3 | h3
          · exact ih h n h1 (by omega)
          · have : n = k + 1 := by omega
            rw [this]
            exact hv

/-- C2: the decode phase tries a whole-text parse first; on failure it
decodes the longest valid JSON value occurring as a prefix (ignoring
trailing bytes); when that also fails it fails fatally carrying the
fallback decode error's position.  After decoding, a `structured_output`
key holding a mapping replaces the document, a present non-mapping
value is fatal before any output (wrapper failure), and an absent key
leaves the outer mapping in place. -/
theorem c2_tolerant_decoder :
    (∀ (s : String) (v : PyVal), pyLoads s = some v →
      load_json_with_trailing_text s = Except.ok v) ∧
    (∀ (s : String) (v : PyVal) (n : Nat), pyLoads s = Option.none →
      raw_decode s = Except.ok (v, n) →
      load_json_with_trailing_text s = Except.ok v ∧
      valueExact (s.data.take n) = some v ∧
      ∀ m, n < m → m ≤ s.data.length → valueExact (s.data.take m) = Option.none) ∧
    (∀ (s : String) (p : Nat), pyLoads s = Option.none →
      raw_decode s = Except.error p →
      load_json_with_trailing_text s = Except.error p ∧
      ∀ n, 1 ≤ n → n ≤ s.data.length → valueExact (s.data.take n) = Option.none) ∧
    (∀ (s : String) (raw : PyVal), load_json_with_trailing_text s = Except.ok raw →
      pipeline_review_doc s = obtainAfterDecode raw) ∧
    (∀ (s : String) (p : Nat), load_json_with_trailing_text s = Except.error p →
      pipeline_review_doc s = .decodeFail p) ∧
    (∀ (kvs inner : List (String × PyVal)),
      assocFind kvs "structured_output" = some (.dict inner) →
      obtainAfterDecode (.dict kvs) = .doc (.dict inner)) ∧
    (∀ (kvs : List (String × PyVal)) (v : PyVal),
      assocFind kvs "structured_output" = some v → pyIsDict v = false →
      obtainAfterDecode (.dict kvs) = .wrapperFail) ∧
    (∀ kvs : List (String × PyVal),
      assocFind kvs "structured_output" = Option.none →
      obtainAfterDecode (.dict kvs) = .doc (.dict kvs)) := by
  refine ⟨?_, ?_, ?_, ?_, ?_, ?_, ?_, ?_⟩
  · intro s v h
    unfold load_json_with_trailing_text
    rw [h]
  · intro s v n h1 h2
    unfold raw_decode at h2
    cases hl : longestValuePrefixAux s.data s.data.length with
    | none => rw [hl] at h2; simp at h2
    | some pr =>
        obtain ⟨w, m⟩ := pr
        rw [hl] at h2
        injection h2 with h3
        rw [show w = v from congrArg Prod.fst h3,
          show m = n from congrArg Prod.snd h3] at hl
        obtain ⟨_, hval, hmax⟩ := longestAux_some s.data s.data.length v n hl
        refine ⟨?_, hval, hmax⟩
        unfold load_json_with_trailing_text
        rw [h1]
        unfold raw_decode
        rw [hl]
  · intro s p h1 h2
    unfold raw_decode at h2
    cases hl : longestValuePrefixAux s.data s.data.length with
    | some pr => rw [hl] at h2; simp at h2
    | none =>
        rw [hl] at h2
        injection h2 with h3
        constructor
        · unfold load_json_with_trailing_text
          rw [h1]
          unfold raw_decode
          rw [hl, h3]
        · exact longestAux_none s.data s.data.length hl
  · intro s raw h
    unfold pipeline_review_doc
    rw [h]
  · intro s p h
    unfold pipeline_review_doc
    rw [h]
  · intro kvs inner h
    unfold obtainAfterDecode extract_review_data
    dsimp only
    rw [h]
    rfl
  · intro kvs v h hnd
    cases v <;>
      simp_all [obtainAfterDecode, extract_review_data, pyIsDict]
  · intro kvs h
    unfold obtainAfterDecode extract_review_data
    dsimp only
    rw [h]

/-- C2 witness: the theorem's branches applied at the concrete input
`{"a": 1}tail` (whole-text parse fails, the 8-character prefix decodes,
trailing bytes are ignored), at `xyz` (both parses fail, error at
position 0), and at concrete wrapped, misshapen and unwrapped
documents. -/
theorem c2_witness :
    (load_json_with_trailing_text "\x7b\"a\": 1\x7dtail" =
        Except.ok (.dict [("a", .int 1)]) ∧
      valueExact (("\x7b\"a\": 1\x7dtail" : String).data.take 8) =
        some (.dict [("a", .int 1)]) ∧
      ∀ m, 8 < m → m ≤ ("\x7b\"a\": 1\x7dtail" : String).data.length →
        valueExact (("\x7b\"a\": 1\x7dtail" : String).data.take m) = Option.none) ∧
    (load_json_with_trailing_text "xyz" = Except.error 0 ∧
      ∀ n, 1 ≤ n → n ≤ ("xyz" : String).data.length →
        valueExact (("xyz" : String).data.take n) = Option.none) ∧
    obtainAfterDecode (.dict [("structured_output", .dict [("x", .int 1)])]) =
      .doc (.dict [("x", .int 1)]) ∧
    obtainAfterDecode (.dict [("structured_output", .str "refusal")]) =
      .wrapperFail ∧
    obtainAfterDecode (.dict [("other", .int 2)]) = .doc (.dict [("other", .int 2)]) :=
  ⟨c2_tolerant_decoder.2.1 "\x7b\"a\": 1\x7dtail" (.dict [("a", .int 1)]) 8 rfl rfl,
   c2_tolerant_decoder.2.2.1 "xyz" 0 rfl rfl,
   c2_tolerant_decoder.2.2.2.2.2.1 [("structured_output", .dict [("x", .int 1)])]
     [("x", .int 1)] rfl,
   c2_tolerant_decoder.2.2.2.2.2.2.1 [("structured_output", .str "refusal")]
     (.str "refusal") rfl rfl,
   c2_tolerant_decoder.2.2.2.2.2.2.2 [("other", .int 2)] rfl⟩
